import Mathlib

/-!
# vcfR: window assignment (`rank_variants.cpp`) and VCF reading / writing (`read_vcf3.cpp`)

A shallow embedding of the C++ sources into Lean definitions, followed by
theorems about those definitions. The definitions come first (namespace
`RankVariants` for `rank_variants.cpp`, namespace `ReadVcf` for
`read_vcf3.cpp`), the theorems after them.

Conventions of the embedding

* An `Rcpp` vector or `std::vector` is a `List`. The bounds-checked accessor
  `v(i)` of `Rcpp` fails with `index_out_of_bounds` outside the vector; the
  unchecked accessors (`operator[]`, `Matrix::operator()`) outside the object
  are undefined behaviour, which is a failure of its own kind.
* A data frame is the list of its named columns; its number of rows is the
  length of each of its columns.
* In `rank_variants` a `double` is `Option Int`: `none` is `NA`/`NaN` (every
  comparison with it is false), `some z` an ordered numeric value.
* A `std::string` is the list of its characters, without the character `NUL`;
  an element of a string vector is an `Option`, `none` being `NA_STRING`.
* A text file is the list of its lines, each ended by a newline in the file;
  the content of a written file is the list of its characters, and the content
  of a gzip file is its uncompressed text.
* `atof` and the printing of a `double` by R are parameters (`Host`).
* Output to `Rcout` and `Rcpp::checkUserInterrupt()` are not part of the model.
-/

deriving instance DecidableEq for Except

namespace RankVariants

/-- An element of an `Rcpp::NumericVector`: `none` is `NA`/`NaN`. -/
abbrev Dbl := Option Int

/-- The C++ comparison `a > b` on doubles: false as soon as one side is `NaN`. -/
def Dbl.gt : Dbl → Dbl → Bool
  | some a, some b => decide (b < a)
  | _, _ => false

/-- The C++ comparison `a < b` on doubles: false as soon as one side is `NaN`. -/
def Dbl.lt : Dbl → Dbl → Bool
  | some a, some b => decide (a < b)
  | _, _ => false

/-- The exceptions of `Rcpp` that reach the caller: `index_out_of_bounds` is
thrown by the bounds-checked accessors (`v(i)` with `i` outside the vector,
`df["name"]` with an absent name); `eval_error` is an error that R raises
inside a call from `Rcpp` into R, which `Rcpp` rethrows. -/
inductive RcppError where
  | index_out_of_bounds
  | eval_error
  deriving DecidableEq, Repr

/-- A column of an `Rcpp::DataFrame`, restricted to the two kinds
`rank_variants` reads. -/
inductive Column where
  | numeric (v : List Dbl)
  | logical (v : List (Option Bool))
  deriving DecidableEq, Repr

/-- An `Rcpp::DataFrame`: the ordered list of its named columns. -/
abbrev DataFrame := List (String × Column)

/-- The accessor `df["name"]`: first column of that name, an exception when
there is none. -/
def DataFrame.col (df : DataFrame) (name : String) : Except RcppError Column :=
  match df.find? (fun c => c.1 == name) with
  | some c => .ok c.2
  | none => .error .index_out_of_bounds

/-- Conversion of a column to `Rcpp::NumericVector` (R coercion of logicals). -/
def Column.as_numeric : Column → List Dbl
  | .numeric v => v
  | .logical v => v.map (Option.map (fun b => if b then 1 else 0))

/-- Conversion of a column to `Rcpp::LogicalVector` (R coercion of numbers). -/
def Column.as_logical : Column → List (Option Bool)
  | .logical v => v
  | .numeric v => v.map (Option.map (fun z => decide (z ≠ 0)))

/-- The bounds-checked element access `v(i)`. -/
def at_ {α : Type} (v : List α) (i : Nat) : Except RcppError α :=
  match v[i]? with
  | some x => .ok x
  | none => .error .index_out_of_bounds

/-- The loop `while(p > ends(win)){win++;}`, with `rest` the part of `ends`
from index `win` on: `ends(win)` is the head of `rest`, and throws when
`rest` is empty. Returns the final value of `win`. -/
def skip_windows (p : Dbl) : List Dbl → Nat → Except RcppError Nat
  | [], _ => .error .index_out_of_bounds
  | e :: rest, win =>
    if Dbl.gt p e then skip_windows p rest (win + 1) else .ok win

/-- The body of `for(i=1; i<score.size(); i++)`, run over the row indices
`rows`; the state is the window cursor `win` and the vector `win_num`. -/
def window_loop (pos ends : List Dbl) :
    List Nat → Nat → List Nat → Except RcppError (List Nat)
  | [], _, win_num => .ok win_num
  | i :: rows, win, win_num => do
    let p ← at_ pos i
    let e ← at_ ends win
    if Dbl.lt p e then
      window_loop pos ends rows win (win_num.set i win)
    else do
      let win' ← skip_windows p (ends.drop win) win
      window_loop pos ends rows win' (win_num.set i win')

/-- The columns of `variants` followed by the column `window_number` holding
`wn`. -/
def with_window_number (variants : DataFrame) (wn : List Nat) : DataFrame :=
  variants ++ [("window_number", .numeric (wn.map (fun w => some (w : Int))))]

/-- R's `rep(v, times = k)`: `k` copies of `v` in a row. -/
def rep_times {α : Type} (v : List α) : Nat → List α
  | 0 => []
  | k + 1 => v ++ rep_times v k

/-- A column recycled `k` times. -/
def Column.rep_times : Column → Nat → Column
  | .numeric v, k => .numeric (RankVariants.rep_times v k)
  | .logical v, k => .logical (RankVariants.rep_times v k)

/-- The call `Rcpp::DataFrame::create(variants, _["window_number"]=win_num)`.
`Rcpp` hands the list of the two arguments to R's `as.data.frame`, which builds
`data.frame(variants, window_number = win_num)`: the columns of `variants`
followed by the column `window_number`, over the greater of the two numbers of
rows. An argument with fewer rows is recycled a whole number of times when its
number of rows is positive and divides the greater one; otherwise R raises
"arguments imply differing number of rows", which `Rcpp` rethrows. `nrow` is
the number of rows of `variants`, the length of each of its columns. -/
def data_frame_create (variants : DataFrame) (nrow : Nat) (win_num : List Nat) :
    Except RcppError DataFrame :=
  if win_num.length = nrow then
    .ok (with_window_number variants win_num)
  else if win_num.length < nrow then
    if 0 < win_num.length ∧ nrow % win_num.length = 0 then
      .ok (with_window_number variants (rep_times win_num (nrow / win_num.length)))
    else .error .eval_error
  else
    if 0 < nrow ∧ win_num.length % nrow = 0 then
      .ok (with_window_number
        (variants.map (fun c => (c.1, c.2.rep_times (win_num.length / nrow)))) win_num)
    else .error .eval_error

/-- The function `rank_variants` of `rank_variants.cpp`. The number of rows of
`variants` is taken from its column `POS`. -/
def rank_variants (variants : DataFrame) (ends score : List Dbl) :
    Except RcppError DataFrame := do
  let pos := (← variants.col "POS").as_numeric
  let _mask := (← variants.col "mask").as_logical
  let win_num : List Nat := List.replicate score.length 0
  -- Iterate to first window.
  let p0 ← at_ pos 0
  let win ← skip_windows p0 ends 0
  let _ ← at_ win_num 0
  let win_num := win_num.set 0 win
  let win_num ← window_loop pos ends (List.range' 1 (score.length - 1)) win win_num
  data_frame_create variants pos.length win_num

/-- The table `variants` used in the examples: columns `POS` and `mask`. -/
def variants_of (pos : List Int) (mask : List Bool) : DataFrame :=
  [("POS", .numeric (pos.map some)), ("mask", .logical (mask.map some))]

end RankVariants

namespace ReadVcf

/-- A `std::string`: its sequence of characters. -/
abbrev Str := List Char

/-- An element of an `Rcpp::StringVector`: `none` is `NA_STRING`. -/
abbrev RString := Option Str

/-- The ways a call can fail to return. `index_out_of_bounds` is the exception
of the bounds-checked `Rcpp` accessors (`v(i)`, `df(i)`, `df["name"]`);
`r_error` is an error raised by the R runtime (a matrix of negative extent);
`undefined_behavior` is a raw access outside the object (`std::vector`
`operator[]`, `Rcpp` `operator[]`, `Matrix::operator()`) or a result of `atoi`
that does not fit an `int`. -/
inductive Fault where
  | index_out_of_bounds
  | r_error
  | undefined_behavior
  deriving DecidableEq, Repr

/-- The character `'\t'`. -/
def tab : Char := '\t'

/-- The terminating `'\0'` that `line[line.size()]` reads. -/
def nul : Char := Char.ofNat 0

/-- The element `line[i]` of a `std::string`, for `i ≤ line.size()`. -/
def char_at (line : Str) (i : Nat) : Char := line.getD i nul

/-- The call `line.substr(pos, n)`, for `pos ≤ line.size()`. -/
def substr (line : Str) (pos n : Nat) : Str := (line.drop pos).take n

/-- The bounds-checked element access `v(i)` of `Rcpp`. -/
def at_ {α : Type} (v : List α) (i : Nat) : Except Fault α :=
  match v[i]? with
  | some x => .ok x
  | none => .error .index_out_of_bounds

/-- The unchecked element read `v[i]`. -/
def read_u {α : Type} (v : List α) (i : Nat) : Except Fault α :=
  match v[i]? with
  | some x => .ok x
  | none => .error .undefined_behavior

/-- The unchecked element write `v[i] = x`. -/
def write_u {α : Type} (v : List α) (i : Nat) (x : α) : Except Fault (List α) :=
  if i < v.length then .ok (v.set i x) else .error .undefined_behavior

/-! ### `vcf_stats` -/

/-- The vector `stats` with its names `"meta", "header", "variants", "columns"`. -/
structure Stats where
  meta : Nat
  header : Nat
  variants : Nat
  columns : Nat
  deriving DecidableEq, Repr

/-- The body of the loop `while ( getline (myfile,line) )` of `vcf_stats`. -/
def vcf_stats_line (stats : Stats) (line : Str) : Stats :=
  if char_at line 0 = '#' ∧ char_at line 1 = '#' then
    { stats with meta := stats.meta + 1 }
  else if char_at line 0 = '#' then
    -- Count the columns in the header.
    { stats with header := stats.meta + 1,
                 columns := stats.columns + line.count tab + 1 }
  else
    { stats with variants := stats.variants + 1 }

/-- The function `vcf_stats`, on the lines of the file in order. -/
def vcf_stats (file : List Str) : Stats :=
  file.foldl vcf_stats_line ⟨0, 0, 0, 0⟩

/-! ### Reading lines -/

/-- The call `getline (myfile, line)` on a text file whose lines all end in a
newline, the stream being the lines not yet read: returns whether a line was
read, the new value of `line` (empty once the end has been hit) and the rest
of the stream. -/
def getline (stream : List Str) : Bool × Str × List Str :=
  match stream with
  | l :: rest => (true, l, rest)
  | [] => (false, [], [])

/-- The loop of `vcf_meta`: `n` more iterations, `i` the next index. -/
def vcf_meta_loop : Nat → Nat → List Str → List RString → Except Fault (List RString)
  | 0, _, _, meta => .ok meta
  | n + 1, i, stream, meta => do
    let (_, line, stream) := getline stream
    let _ ← at_ meta i
    vcf_meta_loop n (i + 1) stream (meta.set i (some line))

/-- The function `vcf_meta`. -/
def vcf_meta (file : List Str) (stats : Stats) : Except Fault (List RString) :=
  vcf_meta_loop stats.meta 0 file (List.replicate stats.meta (some []))

/-! ### `tabsplit` -/

/-- The loop `for(int i=1; i<line.size(); i++)` of `tabsplit`; the state is
`i`, `start`, `j` and `stringv`. Every iteration increases `i`, so
`line.size()` iterations are never exceeded and the first argument, which
bounds their number, is never exhausted when started at `line.size()`. -/
def tabsplit_loop (line : Str) :
    Nat → Nat → Nat → Nat → List Str → Except Fault (Nat × Nat × List Str)
  | 0, _, start, j, stringv => .ok (start, j, stringv)
  | fuel + 1, i, start, j, stringv =>
    if i < line.length then
      if char_at line i = tab then do
        let temp := substr line start (i - start)
        let stringv ← write_u stringv j temp
        -- j++; start = i+1; i = i+1; and then the i++ of the loop
        tabsplit_loop line fuel (i + 2) (i + 1) (j + 1) stringv
      else
        tabsplit_loop line fuel (i + 1) start j stringv
    else
      .ok (start, j, stringv)

/-- The function `tabsplit`. -/
def tabsplit (line : Str) (elements : Nat) : Except Fault (List Str) := do
  let stringv : List Str := List.replicate elements []
  let (start, j, stringv) ← tabsplit_loop line line.length 1 0 0 stringv
  -- Handle last element.
  let temp := substr line start line.length
  write_u stringv j temp

/-! ### Data frames and matrices -/

/-- The functions on `double` that the sources call and that live in the C
library and in R: `atof`, the value `0.0` and R's `as.character` on a
non-missing number. They are parameters of the embedding, `R` being the type
of the non-missing doubles. -/
structure Host (R : Type) where
  atof : Str → R
  zero : R
  as_character : R → Str

/-- A column of an `Rcpp::DataFrame`; `none` is the `NA` of the column type. -/
inductive Column (R : Type) where
  | character (v : List RString)
  | integer (v : List (Option Int))
  | numeric (v : List (Option R))
  deriving DecidableEq, Repr

/-- An `Rcpp::DataFrame`: the ordered list of its named columns. -/
abbrev DataFrame (R : Type) := List (Str × Column R)

/-- R's `as.character` on a non-missing integer: its decimal digits. -/
def int_to_string (z : Int) : Str := (toString z).toList

/-- The conversion `Rcpp::StringVector sv = column`. -/
def Column.as_strings {R : Type} (h : Host R) : Column R → List RString
  | .character v => v
  | .integer v => v.map (Option.map int_to_string)
  | .numeric v => v.map (Option.map h.as_character)

/-- The accessor `df["name"]`: first column of that name, an exception when
there is none. -/
def DataFrame.col {R : Type} (df : DataFrame R) (name : Str) : Except Fault (Column R) :=
  match df.find? (fun c => c.1 == name) with
  | some c => .ok c.2
  | none => .error .index_out_of_bounds

/-- The bounds-checked accessor `df(i)`. -/
def DataFrame.at {R : Type} (df : DataFrame R) (i : Nat) : Except Fault (Column R) :=
  match df[i]? with
  | some c => .ok c.2
  | none => .error .index_out_of_bounds

/-- An `Rcpp::StringMatrix`: its extents and its cells in column-major order. -/
structure StringMatrix where
  nrow : Nat
  ncol : Nat
  data : List RString
  deriving DecidableEq, Repr

/-- The constructor `StringMatrix(nrow, ncol)`: all cells are empty strings. -/
def StringMatrix.create (nrow ncol : Nat) : StringMatrix :=
  ⟨nrow, ncol, List.replicate (nrow * ncol) (some [])⟩

/-- The read `m(i, j)`: the cell at offset `i + nrow * j`, not bounds-checked. -/
def StringMatrix.get (m : StringMatrix) (i j : Nat) : Except Fault RString :=
  read_u m.data (i + m.nrow * j)

/-- The write `m(i, j) = x`: the cell at offset `i + nrow * j`, not
bounds-checked. -/
def StringMatrix.set (m : StringMatrix) (i j : Nat) (x : RString) :
    Except Fault StringMatrix := do
  let data ← write_u m.data (i + m.nrow * j) x
  .ok { m with data := data }

/-- Column `j` of a matrix, as `DataFrame::create` splits a matrix into
columns. -/
def StringMatrix.column (m : StringMatrix) (j : Nat) : List RString :=
  (m.data.drop (m.nrow * j)).take m.nrow

/-! ### `vcf_body` -/

/-- The text `"."`. -/
def dot : Str := ['.']

/-- The C function `isspace` in the C locale. -/
def isspace (c : Char) : Bool :=
  c = ' ' ∨ c = '\t' ∨ c = '\n' ∨ c = Char.ofNat 11 ∨ c = Char.ofNat 12 ∨ c = '\r'

/-- The value of the leading decimal digits of a text, continuing from `acc`. -/
def digits_value : List Char → Nat → Nat
  | [], acc => acc
  | c :: cs, acc =>
    if c.isDigit then digits_value cs (10 * acc + (c.toNat - 48)) else acc

/-- The C function `atoi`, as a mathematical integer: leading white space, an
optional sign, then decimal digits up to the first other character. -/
def atoi (s : Str) : Int :=
  match s.dropWhile isspace with
  | '-' :: cs => - (digits_value cs 0 : Int)
  | '+' :: cs => (digits_value cs 0 : Int)
  | cs => (digits_value cs 0 : Int)

/-- The least `int`, which is R's `NA_INTEGER`. -/
def INT_MIN : Int := -2147483648

/-- The greatest `int`. -/
def INT_MAX : Int := 2147483647

/-- The branch `if(temps[k] == "."){ x[i] = NA_STRING; } else { x[i] = temps[k]; }`. -/
def na_string (t : Str) : RString :=
  if t = dot then none else some t

/-- The branch for `POS`: `NA_INTEGER` for `"."`, otherwise `atoi`; the `int`
equal to `NA_INTEGER` reads back as missing. -/
def pos_value (t : Str) : Except Fault (Option Int) :=
  if t = dot then .ok none
  else if atoi t < INT_MIN ∨ INT_MAX < atoi t then .error .undefined_behavior
  else if atoi t = INT_MIN then .ok none
  else .ok (some (atoi t))

/-- The branch for `QUAL`: `NA_REAL` for `"."`, otherwise `atof`. -/
def qual_value {R : Type} (h : Host R) (t : Str) : Option R :=
  if t = dot then none else some (h.atof t)

/-- The vectors and the matrix that `vcf_body` fills. -/
structure Body (R : Type) where
  chrom : List RString
  pos : List (Option Int)
  id : List RString
  ref : List RString
  alt : List RString
  qual : List (Option R)
  filter : List RString
  info : List RString
  gt : StringMatrix

/-- The loop `for(j=8; j<stats[3]; j++){ gt(i, j-8) = temps[j]; }`, over the
indices `js`. -/
def gt_row (temps : List Str) (i : Nat) : List Nat → StringMatrix → Except Fault StringMatrix
  | [], gt => .ok gt
  | j :: js, gt => do
    let t ← read_u temps j
    let gt ← gt.set i (j - 8) (some t)
    gt_row temps i js gt

/-- The body of the loop `while ( getline (myfile,line) )` of `vcf_body`, for
row `i`. -/
def vcf_body_row {R : Type} (h : Host R) (stats : Stats) (b : Body R) (i : Nat)
    (line : Str) : Except Fault (Body R) := do
  let temps ← tabsplit line stats.columns
  let chrom ← write_u b.chrom i (na_string (← read_u temps 0))
  let pos ← write_u b.pos i (← pos_value (← read_u temps 1))
  let id ← write_u b.id i (na_string (← read_u temps 2))
  let ref ← write_u b.ref i (na_string (← read_u temps 3))
  let alt ← write_u b.alt i (na_string (← read_u temps 4))
  let qual ← write_u b.qual i (qual_value h (← read_u temps 5))
  let filter ← write_u b.filter i (na_string (← read_u temps 6))
  let info ← write_u b.info i (na_string (← read_u temps 7))
  let gt ← gt_row temps i (List.range' 8 (stats.columns - 8)) b.gt
  .ok { chrom := chrom, pos := pos, id := id, ref := ref, alt := alt, qual := qual,
        filter := filter, info := info, gt := gt }

/-- The loop `while ( getline (myfile,line) )` of `vcf_body` over the lines
left in the stream, `i` being the next row. -/
def vcf_body_loop {R : Type} (h : Host R) (stats : Stats) :
    List Str → Nat → Body R → Except Fault (Body R)
  | [], _, b => .ok b
  | line :: stream, i, b => do
    let b ← vcf_body_row h stats b i line
    vcf_body_loop h stats stream (i + 1) b

/-- The declarations `Rcpp::CharacterVector chrom(stats[2]);` to
`Rcpp::CharacterMatrix gt(stats[2], stats[3] - 8);` of `vcf_body`: vectors of
`n` empty strings or zeros and a matrix of `n` rows and `G` columns. -/
def Body.init {R : Type} (h : Host R) (n G : Nat) : Body R :=
  { chrom := List.replicate n (some []), pos := List.replicate n (some 0),
    id := List.replicate n (some []), ref := List.replicate n (some []),
    alt := List.replicate n (some []), qual := List.replicate n (some h.zero),
    filter := List.replicate n (some []), info := List.replicate n (some []),
    gt := StringMatrix.create n G }

/-- The function `vcf_body`. The returned data frame has the fixed columns,
then the columns of the matrix `gt`, under the names of the header line. -/
def vcf_body {R : Type} (h : Host R) (file : List Str) (stats : Stats) :
    Except Fault (DataFrame R) := do
  if stats.columns < 8 then .error .r_error
  let b : Body R := Body.init h stats.variants (stats.columns - 8)
  -- Iterate past meta.
  let stream := file.drop stats.meta
  -- Get header.
  let (_, header, stream) := getline stream
  -- Get body.
  let b ← vcf_body_loop h stats stream 0 b
  let temps ← tabsplit header stats.columns
  let temps := temps.set 0 ((← read_u temps 0).drop 1)
  let columns : List (Column R) :=
    [.character b.chrom, .integer b.pos, .character b.id, .character b.ref,
     .character b.alt, .numeric b.qual, .character b.filter, .character b.info]
    ++ (List.range b.gt.ncol).map (fun j => .character (b.gt.column j))
  .ok (List.zip temps columns)

/-! ### The writers -/

/-- The eight vectors `Rcpp::StringVector x = fix["X"]` of the writers. -/
structure FixColumns where
  chrom : List RString
  pos : List RString
  id : List RString
  ref : List RString
  alt : List RString
  qual : List RString
  filter : List RString
  info : List RString
  deriving DecidableEq, Repr

/-- The declarations `Rcpp::StringVector chrom = fix["CHROM"];` to
`Rcpp::StringVector info = fix["INFO"];`. -/
def fix_columns {R : Type} (h : Host R) (fix : DataFrame R) : Except Fault FixColumns := do
  let chrom ← fix.col "CHROM".toList
  let pos ← fix.col "POS".toList
  let id ← fix.col "ID".toList
  let ref ← fix.col "REF".toList
  let alt ← fix.col "ALT".toList
  let qual ← fix.col "QUAL".toList
  let filter ← fix.col "FILTER".toList
  let info ← fix.col "INFO".toList
  .ok { chrom := chrom.as_strings h, pos := pos.as_strings h, id := id.as_strings h,
        ref := ref.as_strings h, alt := alt.as_strings h, qual := qual.as_strings h,
        filter := filter.as_strings h, info := info.as_strings h }

/-- The loop `for(int j=0; j < sv.size(); j++){ sm(j, i) = sv(j); }` of
`DataFrame_to_StringMatrix`, over the indices `js`. -/
def fill_column (sv : List RString) (i : Nat) :
    List Nat → StringMatrix → Except Fault StringMatrix
  | [], sm => .ok sm
  | j :: js, sm => do
    let x ← at_ sv j
    let sm ← sm.set j i x
    fill_column sv i js sm

/-- The loop `for(int i=0; i < df.size(); i++)` of `DataFrame_to_StringMatrix`,
over the indices `cols`. -/
def fill_matrix {R : Type} (h : Host R) (df : DataFrame R) :
    List Nat → StringMatrix → Except Fault StringMatrix
  | [], sm => .ok sm
  | i :: cols, sm => do
    let sv := (← df.at i).as_strings h
    let sm ← fill_column sv i (List.range sv.length) sm
    fill_matrix h df cols sm

/-- The function `DataFrame_to_StringMatrix`. -/
def DataFrame_to_StringMatrix {R : Type} (h : Host R) (df : DataFrame R) :
    Except Fault StringMatrix := do
  let sv := (← df.at 0).as_strings h
  let sm := StringMatrix.create sv.length df.length
  fill_matrix h df (List.range df.length) sm

/-- The characters that `myfile << x` and `tmpstring + x` add for an element
`x` of a string vector: `NA_STRING` holds the characters `NA`. -/
def out_string : RString → Str
  | none => ['N', 'A']
  | some s => s

/-- The text `"PASS"`. -/
def PASS : Str := ['P', 'A', 'S', 'S']

/-- The loop `for(j=1; j<column_names.size(); j++)` of `write_vcf_body`, over
the indices `js`. -/
def write_gt (gt_cm : StringMatrix) (i : Nat) : List Nat → Str → Except Fault Str
  | [], myfile => .ok myfile
  | j :: js, myfile => do
    let myfile := myfile ++ [tab]
    let myfile := myfile ++ out_string (← gt_cm.get i j)
    write_gt gt_cm i js myfile

/-- The `else` branch of the row loop of `write_vcf_body`: the text appended to
`myfile` for row `i`; `ncol` is `column_names.size()`. -/
def write_vcf_body_row (c : FixColumns) (gt_cm : StringMatrix) (ncol : Nat) (i : Nat)
    (myfile : Str) : Except Fault Str := do
  let chrom ← at_ c.chrom i
  let myfile := myfile ++ out_string chrom
  let myfile := myfile ++ [tab]
  let pos ← at_ c.pos i
  let myfile := myfile ++ out_string pos
  let myfile := myfile ++ [tab]
  let id ← at_ c.id i
  let myfile :=
    if id = none then (myfile ++ dot) ++ [tab]
    else (myfile ++ out_string id) ++ [tab]
  let ref ← at_ c.ref i
  let myfile := myfile ++ out_string ref
  let myfile := myfile ++ [tab]
  let alt ← at_ c.alt i
  let myfile := myfile ++ out_string alt
  let myfile := myfile ++ [tab]
  let qual ← at_ c.qual i
  let myfile :=
    if qual = none then (myfile ++ dot) ++ [tab]
    else (myfile ++ out_string qual) ++ [tab]
  let filter ← at_ c.filter i
  let myfile :=
    if filter = none then (myfile ++ dot) ++ [tab]
    else (myfile ++ out_string filter) ++ [tab]
  let info ← at_ c.info i
  let myfile :=
    if info = none then (myfile ++ dot) ++ [tab]
    else myfile ++ out_string info
  -- gt region.
  let myfile := myfile ++ [tab]
  let gt0 ← gt_cm.get i 0
  let myfile := myfile ++ out_string gt0
  let myfile ← write_gt gt_cm i (List.range' 1 (ncol - 1)) myfile
  .ok (myfile ++ ['\n'])

/-- The loop `for(i=0; i<chrom.size(); i++)` of `write_vcf_body`, over the row
indices `rows`. -/
def write_vcf_body_loop (c : FixColumns) (gt_cm : StringMatrix) (ncol : Nat) (mask : Int) :
    List Nat → Str → Except Fault Str
  | [], myfile => .ok myfile
  | i :: rows, myfile => do
    let skip ← if mask = 1 then (do .ok (out_string (← at_ c.filter i) == PASS)) else .ok false
    if skip then
      -- Don't print variant.
      write_vcf_body_loop c gt_cm ncol mask rows myfile
    else do
      let myfile ← write_vcf_body_row c gt_cm ncol i myfile
      write_vcf_body_loop c gt_cm ncol mask rows myfile

/-- The function `write_vcf_body`: `file` is the content of the file before the
call (it is opened in append mode), the result its content after the call. -/
def write_vcf_body {R : Type} (h : Host R) (fix gt : DataFrame R) (file : Str) (mask : Int) :
    Except Fault Str := do
  let c ← fix_columns h fix
  let gt_cm ← DataFrame_to_StringMatrix h gt
  write_vcf_body_loop c gt_cm gt.length mask (List.range c.chrom.length) file

/-- The loop `for(j=0; j<column_names.size(); j++)` of `write_vcf_body_gz`,
over the indices `js`. -/
def write_gt_gz (gt_cm : StringMatrix) (i : Nat) : List Nat → Str → Except Fault Str
  | [], tmpstring => .ok tmpstring
  | j :: js, tmpstring => do
    let tmpstring := tmpstring ++ [tab] ++ out_string (← gt_cm.get i j)
    write_gt_gz gt_cm i js tmpstring

/-- The `else` branch of the row loop of `write_vcf_body_gz`: the uncompressed
text appended for row `i`. -/
def write_vcf_body_gz_row (c : FixColumns) (gt_cm : StringMatrix) (ncol : Nat) (i : Nat)
    (fi : Str) : Except Fault Str := do
  let chrom ← at_ c.chrom i
  let tmpstring := out_string chrom
  let pos ← at_ c.pos i
  let tmpstring := tmpstring ++ [tab] ++ out_string pos ++ [tab]
  let id ← at_ c.id i
  let tmpstring :=
    if id = none then tmpstring ++ dot
    else tmpstring ++ out_string id
  let ref ← at_ c.ref i
  let alt ← at_ c.alt i
  let tmpstring := tmpstring ++ [tab] ++ out_string ref ++ [tab] ++ out_string alt ++ [tab]
  let qual ← at_ c.qual i
  let tmpstring :=
    if qual = none then tmpstring ++ dot ++ [tab]
    else tmpstring ++ out_string qual ++ [tab]
  let filter ← at_ c.filter i
  let tmpstring :=
    if filter = none then tmpstring ++ dot ++ [tab]
    else tmpstring ++ out_string filter ++ [tab]
  let info ← at_ c.info i
  let tmpstring := tmpstring ++ out_string info
  -- gt portion
  let tmpstring ← write_gt_gz gt_cm i (List.range ncol) tmpstring
  let fi := fi ++ tmpstring
  .ok (fi ++ ['\n'])

/-- The loop `for(i=0; i<chrom.size(); i++)` of `write_vcf_body_gz`, over the
row indices `rows`. -/
def write_vcf_body_gz_loop (c : FixColumns) (gt_cm : StringMatrix) (ncol : Nat) (mask : Int) :
    List Nat → Str → Except Fault Str
  | [], fi => .ok fi
  | i :: rows, fi => do
    let skip ← if mask = 1 then (do .ok (out_string (← at_ c.filter i) != PASS)) else .ok false
    if skip then
      -- Don't print variant.
      write_vcf_body_gz_loop c gt_cm ncol mask rows fi
    else do
      let fi ← write_vcf_body_gz_row c gt_cm ncol i fi
      write_vcf_body_gz_loop c gt_cm ncol mask rows fi

/-- The function `write_vcf_body_gz`: `file` is the uncompressed content of the
file before the call (it is opened in append mode), the result its
uncompressed content after the call. -/
def write_vcf_body_gz {R : Type} (h : Host R) (fix gt : DataFrame R) (file : Str)
    (mask : Int) : Except Fault Str := do
  let c ← fix_columns h fix
  let gt_cm ← DataFrame_to_StringMatrix h gt
  write_vcf_body_gz_loop c gt_cm gt.length mask (List.range c.chrom.length) file

/-- A host whose doubles are whole numbers, for the examples: `atof` reads an
integer text and `as.character` prints its digits. -/
def int_host : Host Int :=
  { atof := atoi, zero := 0, as_character := int_to_string }

/-! ### Definitions used in the statements -/

/-- A header line: first character `#`, second character not `#`. -/
def is_header (line : Str) : Bool :=
  char_at line 0 = '#' ∧ char_at line 1 ≠ '#'

/-- A meta line: first and second character `#`. -/
def is_meta (line : Str) : Bool :=
  char_at line 0 = '#' ∧ char_at line 1 = '#'

/-- The fields that the scan of `tabsplit` cuts out of `cur ++ rest`, `cur`
being the part of the current field already passed: a tab ends the field, and
the character after a tab starts the next field without being looked at. -/
def fields_from : Str → Str → List Str
  | cur, [] => [cur]
  | cur, [c] => if c = tab then [cur, []] else [cur ++ [c]]
  | cur, c :: d :: rest =>
    if c = tab then cur :: fields_from [d] rest else fields_from (cur ++ [c]) (d :: rest)

/-- The fields that the scan of `tabsplit` cuts out of a line: the first
character is not looked at either. -/
def scanned_fields : Str → List Str
  | [] => [[]]
  | c :: rest => fields_from [c] rest

/-- The writes `stringv[j] = f`, `stringv[j+1] = ...` of a list of fields. -/
def write_fields : List Str → Nat → List Str → Except Fault (List Str)
  | stringv, _, [] => .ok stringv
  | stringv, j, f :: fs => do
    let stringv ← write_u stringv j f
    write_fields stringv (j + 1) fs

/-- One row of the table that the writers print: its eight fixed cells and its
genotype cells. -/
structure Row where
  chrom : RString
  pos : RString
  id : RString
  ref : RString
  alt : RString
  qual : RString
  filter : RString
  info : RString
  gt : List RString
  deriving DecidableEq, Repr

/-- The text of a cell for which the writer tests `NA_STRING`: `"."` when
missing. -/
def na_dot (x : RString) : Str :=
  if x = none then dot else out_string x

/-- The text of the genotype cells, each after a tab. -/
def gt_text (gt : List RString) : Str :=
  gt.flatMap (fun g => tab :: out_string g)

/-- The text that `write_vcf_body` appends for a row. -/
def Row.text (r : Row) : Str :=
  out_string r.chrom ++ [tab] ++ out_string r.pos ++ [tab] ++ na_dot r.id ++ [tab]
    ++ out_string r.ref ++ [tab] ++ out_string r.alt ++ [tab] ++ na_dot r.qual ++ [tab]
    ++ na_dot r.filter ++ [tab]
    ++ (if r.info = none then dot ++ [tab] else out_string r.info)
    ++ gt_text r.gt ++ ['\n']

/-- The uncompressed text that `write_vcf_body_gz` appends for a row. -/
def Row.text_gz (r : Row) : Str :=
  out_string r.chrom ++ [tab] ++ out_string r.pos ++ [tab] ++ na_dot r.id ++ [tab]
    ++ out_string r.ref ++ [tab] ++ out_string r.alt ++ [tab] ++ na_dot r.qual ++ [tab]
    ++ na_dot r.filter ++ [tab] ++ out_string r.info
    ++ gt_text r.gt ++ ['\n']

/-- The cell in row `r` of column `c` of a data frame, as a string. -/
def DataFrame.cell {R : Type} (h : Host R) (df : DataFrame R) (r c : Nat) : Option RString :=
  (df[c]?).bind (fun x => (x.2.as_strings h)[r]?)

/-- Row `i` of the table made of the fixed columns `c` and the genotype data
frame `gt`. -/
def table_row {R : Type} (h : Host R) (c : FixColumns) (gt : DataFrame R) (i : Nat) : Row :=
  { chrom := c.chrom.getD i none, pos := c.pos.getD i none, id := c.id.getD i none,
    ref := c.ref.getD i none, alt := c.alt.getD i none, qual := c.qual.getD i none,
    filter := c.filter.getD i none, info := c.info.getD i none,
    gt := (List.range gt.length).map (fun j => (gt.cell h i j).getD none) }

/-- The fixed columns all have `n` rows. -/
def FixColumns.rows (c : FixColumns) (n : Nat) : Prop :=
  c.chrom.length = n ∧ c.pos.length = n ∧ c.id.length = n ∧ c.ref.length = n
    ∧ c.alt.length = n ∧ c.qual.length = n ∧ c.filter.length = n ∧ c.info.length = n

instance (c : FixColumns) (n : Nat) : Decidable (c.rows n) := by
  unfold FixColumns.rows; infer_instance

/-- The genotype columns all have `n` rows. -/
def DataFrame.rows {R : Type} (h : Host R) (gt : DataFrame R) (n : Nat) : Prop :=
  ∀ c ∈ gt, (c.2.as_strings h).length = n

instance {R : Type} (h : Host R) (gt : DataFrame R) (n : Nat) : Decidable (gt.rows h n) := by
  unfold DataFrame.rows; infer_instance

/-- The fields joined by single tabs. -/
def tab_join : List Str → Str
  | [] => []
  | [f] => f
  | f :: g :: fs => f ++ tab :: tab_join (g :: fs)

/-- No two adjacent characters of the line are both tabs. -/
def no_adjacent_tabs : Str → Bool
  | a :: b :: rest => !(a = tab && b = tab) && no_adjacent_tabs (b :: rest)
  | _ => true

/-- The value that `vcf_body` stores in `POS` for the text `t`, when storing it
is defined. -/
def pos_cell (t : Str) : Option Int :=
  match pos_value t with
  | .ok v => v
  | .error _ => none

/-- A record of `N` fields that the round trip of parser and writer preserves:
the fields are non-empty and tab-free, none of the eight fixed fields is `"."`,
and the texts of `POS` and `QUAL` are reproduced by parsing them and printing
the number. -/
def Record {R : Type} (h : Host R) (N : Nat) (r : List Str) : Prop :=
  r.length = N
    ∧ (∀ f ∈ r, f ≠ [] ∧ tab ∉ f)
    ∧ (∀ f ∈ r.take 8, f ≠ dot)
    ∧ (pos_value (r.getD 1 [])).map (Option.map int_to_string) = .ok (some (r.getD 1 []))
    ∧ h.as_character (h.atof (r.getD 5 [])) = r.getD 5 []

instance {R : Type} (h : Host R) (N : Nat) (r : List Str) : Decidable (Record h N r) := by
  unfold Record; infer_instance

/-- The vectors of a `Body` all have `n` rows, and its matrix has `n` rows and
`G` columns. -/
def Body.rows {R : Type} (b : Body R) (n G : Nat) : Prop :=
  b.chrom.length = n ∧ b.pos.length = n ∧ b.id.length = n ∧ b.ref.length = n
    ∧ b.alt.length = n ∧ b.qual.length = n ∧ b.filter.length = n ∧ b.info.length = n
    ∧ b.gt.nrow = n ∧ b.gt.data.length = n * G

/-- What one iteration of the body loop of `vcf_body` does on the record `r`:
`b1` is `b` with row `i` of every vector and of the matrix written. -/
def RowPost {R : Type} (h : Host R) (N n : Nat) (r : List Str) (i : Nat) (b b1 : Body R) :
    Prop :=
  b1.chrom = b.chrom.set i (na_string (r.getD 0 []))
    ∧ b1.pos = b.pos.set i (pos_cell (r.getD 1 []))
    ∧ b1.id = b.id.set i (na_string (r.getD 2 []))
    ∧ b1.ref = b.ref.set i (na_string (r.getD 3 []))
    ∧ b1.alt = b.alt.set i (na_string (r.getD 4 []))
    ∧ b1.qual = b.qual.set i (qual_value h (r.getD 5 []))
    ∧ b1.filter = b.filter.set i (na_string (r.getD 6 []))
    ∧ b1.info = b.info.set i (na_string (r.getD 7 []))
    ∧ b1.gt.nrow = n ∧ b1.gt.ncol = b.gt.ncol ∧ b1.gt.data.length = b.gt.data.length
    ∧ ∀ r2 c, r2 < n → b1.gt.data[r2 + n * c]?
        = if r2 = i ∧ c < N - 8 then some (some (r.getD (c + 8) []))
          else b.gt.data[r2 + n * c]?

/-- What the body loop of `vcf_body` does on the records `rs` from row `i` on:
`b2` is `b` with the rows before `i` kept and the rows from `i` on holding the
records. -/
def LoopPost {R : Type} (h : Host R) (N n : Nat) (rs : List (List Str)) (i : Nat)
    (b b2 : Body R) : Prop :=
  b2.chrom = b.chrom.take i ++ rs.map (fun r => na_string (r.getD 0 []))
    ∧ b2.pos = b.pos.take i ++ rs.map (fun r => pos_cell (r.getD 1 []))
    ∧ b2.id = b.id.take i ++ rs.map (fun r => na_string (r.getD 2 []))
    ∧ b2.ref = b.ref.take i ++ rs.map (fun r => na_string (r.getD 3 []))
    ∧ b2.alt = b.alt.take i ++ rs.map (fun r => na_string (r.getD 4 []))
    ∧ b2.qual = b.qual.take i ++ rs.map (fun r => qual_value h (r.getD 5 []))
    ∧ b2.filter = b.filter.take i ++ rs.map (fun r => na_string (r.getD 6 []))
    ∧ b2.info = b.info.take i ++ rs.map (fun r => na_string (r.getD 7 []))
    ∧ b2.gt.nrow = n ∧ b2.gt.ncol = b.gt.ncol ∧ b2.gt.data.length = n * (N - 8)
    ∧ ∀ r c, r < n → c < N - 8 → b2.gt.data[r + n * c]?
        = if i ≤ r then some (some ((rs.getD (r - i) []).getD (c + 8) []))
          else b.gt.data[r + n * c]?

/-- The names of the eight fixed columns as they stand in a header line. -/
def fixed_header : List Str :=
  ["#CHROM".toList, "POS".toList, "ID".toList, "REF".toList, "ALT".toList, "QUAL".toList,
   "FILTER".toList, "INFO".toList]

/-- The names of the eight fixed columns. -/
def fixed_names : List Str :=
  ["CHROM".toList, "POS".toList, "ID".toList, "REF".toList, "ALT".toList, "QUAL".toList,
   "FILTER".toList, "INFO".toList]

/-- The data frame that `vcf_body` returns for the filled vectors and matrix and
the names of the genotype columns. -/
def Body.frame {R : Type} (b : Body R) (samples : List Str) : DataFrame R :=
  [("CHROM".toList, .character b.chrom), ("POS".toList, .integer b.pos),
   ("ID".toList, .character b.id), ("REF".toList, .character b.ref),
   ("ALT".toList, .character b.alt), ("QUAL".toList, .numeric b.qual),
   ("FILTER".toList, .character b.filter), ("INFO".toList, .character b.info)]
  ++ List.zip samples ((List.range b.gt.ncol).map (fun j => .character (b.gt.column j)))

/-- The eight string vectors that the writers read from the frame of `b`. -/
def Body.columns {R : Type} (h : Host R) (b : Body R) : FixColumns :=
  { chrom := b.chrom, pos := b.pos.map (Option.map int_to_string), id := b.id,
    ref := b.ref, alt := b.alt, qual := b.qual.map (Option.map h.as_character),
    filter := b.filter, info := b.info }

/-! ### Tables and files of the examples -/

/-- Fixed columns of a table of two rows; the second row has `FILTER` other
than `PASS` and no `INFO`. -/
def example_fix : DataFrame Int :=
  [("CHROM".toList, .character [some "chr1".toList, some "chr1".toList]),
   ("POS".toList, .integer [some 10, some 20]),
   ("ID".toList, .character [some "rs1".toList, none]),
   ("REF".toList, .character [some "A".toList, some "G".toList]),
   ("ALT".toList, .character [some "T".toList, some "C".toList]),
   ("QUAL".toList, .numeric [some 30, none]),
   ("FILTER".toList, .character [some "PASS".toList, some "q10".toList]),
   ("INFO".toList, .character [some "DP=1".toList, none])]

/-- Genotype columns of a table of two rows: `FORMAT` and one sample. -/
def example_gt : DataFrame Int :=
  [("FORMAT".toList, .character [some "GT".toList, some "GT".toList]),
   ("S1".toList, .character [some "0/1".toList, some "1/1".toList])]

/-- A file of one meta line, the header and one record whose `ALT` and `INFO`
are `"."`. -/
def example_file : List Str :=
  ["##fileformat=VCFv4.1".toList,
   "#CHROM\tPOS\tID\tREF\tALT\tQUAL\tFILTER\tINFO\tFORMAT\tS1".toList,
   "chr1\t10\trs1\tA\t.\t30\tPASS\t.\tGT\t0/0".toList]

/-- Two records of ten fields, none of them `"."`. -/
def example_rows : List (List Str) :=
  [["chr1".toList, "10".toList, "rs1".toList, "A".toList, "T".toList, "30".toList,
    "PASS".toList, "DP=1".toList, "GT".toList, "0/1".toList],
   ["chr1".toList, "20".toList, "rs2".toList, "G".toList, "C".toList, "45".toList,
    "q10".toList, "DP=2".toList, "GT".toList, "1/1".toList]]

/-- The names of the two genotype columns of the examples. -/
def example_samples : List Str := ["FORMAT".toList, "S1".toList]

/-! ### Definitions used in the statements about `vcf_body` on any line -/

/-- What the body loop of `vcf_body` takes from one line: the `N` elements that
`tabsplit` returns for it, the conversion of the second of them to an `int`
being defined. -/
def parse_line (N : Nat) (line : Str) : Except Fault (List Str) := do
  let temps ← tabsplit line N
  let _ ← pos_value (temps.getD 1 [])
  .ok temps

/-- What the body loop of `vcf_body` takes from the lines in order, up to the
first line on which it is not defined. -/
def parse_lines (N : Nat) : List Str → Except Fault (List (List Str))
  | [] => .ok []
  | line :: lines => do
    let temps ← parse_line N line
    let rest ← parse_lines N lines
    .ok (temps :: rest)

/-- The names that `vcf_body` gives the columns: the elements that `tabsplit`
returns for the header line, the first without its first character. -/
def header_names (header : Str) (N : Nat) : Except Fault (List Str) := do
  let temps ← tabsplit header N
  .ok (temps.set 0 ((temps.getD 0 []).drop 1))

/-- The table whose row `k` holds the elements `rs[k]`: the eight fixed
columns, with `"."` as missing and `POS` and `QUAL` converted, then `N - 8`
genotype columns holding elements `8` to `N - 1` as they are. -/
def table_of {R : Type} (h : Host R) (N : Nat) (names : List Str) (rs : List (List Str)) :
    DataFrame R :=
  List.zip names
    ([.character (rs.map (fun r => na_string (r.getD 0 []))),
      .integer (rs.map (fun r => pos_cell (r.getD 1 []))),
      .character (rs.map (fun r => na_string (r.getD 2 []))),
      .character (rs.map (fun r => na_string (r.getD 3 []))),
      .character (rs.map (fun r => na_string (r.getD 4 []))),
      .numeric (rs.map (fun r => qual_value h (r.getD 5 []))),
      .character (rs.map (fun r => na_string (r.getD 6 []))),
      .character (rs.map (fun r => na_string (r.getD 7 [])))]
    ++ (List.range (N - 8)).map (fun j => .character (rs.map (fun r => some (r.getD (j + 8) [])))))

/-- The `N` elements that `tabsplit` returns for a line out of which its scan
cuts at most `N` fields: the fields, then empty strings. -/
def split_row (N : Nat) (line : Str) : List Str :=
  scanned_fields line ++ List.replicate (N - (scanned_fields line).length) []

/-- The header line of the eight fixed columns. -/
def example_header8 : Str := "#CHROM\tPOS\tID\tREF\tALT\tQUAL\tFILTER\tINFO".toList

/-- A record of eight fields. -/
def example_record8 : Str := "chr1\t10\trs1\tA\tT\t30\tPASS\tDP=1".toList

/-- A record of eight fields whose `POS` is the text `abc`. -/
def example_record_abc : Str := "chr1\tabc\trs1\tA\tT\t30\tPASS\tDP=1".toList

/-- A header line of ten columns. -/
def example_header10 : Str :=
  "#CHROM\tPOS\tID\tREF\tALT\tQUAL\tFILTER\tINFO\tFORMAT\tS1".toList

/-- A record of nine fields: the field of the sample `S1` is missing. -/
def example_record9 : Str := "chr1\t10\trs1\tA\tT\t30\tPASS\tDP=1\tGT".toList

/-- A record of eight fields whose `POS` is the text `-2147483648x`. -/
def example_record_min : Str := "chr1\t-2147483648x\trs1\tA\tT\t30\tPASS\tDP=1".toList

end ReadVcf

namespace RankVariants


theorem at_eq_error {α : Type} {v : List α} {i : Nat} (h : v.length ≤ i) :
    at_ v i = .error .index_out_of_bounds := by
  simp [at_, List.getElem?_eq_none h]

end RankVariants

namespace ReadVcf

/-! ### `vcf_stats` -/

theorem vcf_stats_line_count (s : Stats) (line : Str) :
    (vcf_stats_line s line).meta + (vcf_stats_line s line).variants
        + (if is_header line then 1 else 0)
      = s.meta + s.variants + 1 := by
  unfold vcf_stats_line is_header
  by_cases h0 : char_at line 0 = '#' <;> by_cases h1 : char_at line 1 = '#' <;>
    simp [h0, h1] <;> omega

theorem vcf_stats_fold_count (file : List Str) :
    ∀ s : Stats, (file.foldl vcf_stats_line s).meta + (file.foldl vcf_stats_line s).variants
        + file.countP is_header = s.meta + s.variants + file.length := by
  induction file with
  | nil => intro s; simp
  | cons line file ih =>
    intro s
    have h1 := ih (vcf_stats_line s line)
    have h2 := vcf_stats_line_count s line
    simp only [List.foldl_cons, List.countP_cons, List.length_cons]
    omega

/-! ### `tabsplit` -/

theorem write_fields_replicate (fs : List Str) :
    ∀ (A : List Str) (k : Nat),
      write_fields (A ++ List.replicate k []) A.length fs
        = if fs.length ≤ k then .ok (A ++ fs ++ List.replicate (k - fs.length) [])
          else .error .undefined_behavior := by
  induction fs with
  | nil => intro A k; simp [write_fields]
  | cons f fs ih =>
    intro A k
    cases k with
    | zero => simp [write_fields, write_u, bind, Except.bind]
    | succ k =>
      have hset : (A ++ List.replicate (k + 1) ([] : Str)).set A.length f
          = (A ++ [f]) ++ List.replicate k [] := by
        rw [List.replicate_succ, List.set_append_right _ _ (le_refl _)]
        simp
      have h := ih (A ++ [f]) k
      simp only [List.length_append, List.length_singleton] at h
      have hlt : A.length < (A ++ List.replicate (k + 1) ([] : Str)).length := by simp
      rw [write_fields, write_u, if_pos hlt]
      simp only [bind, Except.bind]
      rw [hset, h]
      simp

/-- The write after the loop of `tabsplit`: `stringv[j] = line.substr(start, line.size())`. -/
theorem tabsplit_loop_exit (line : Str) (fuel i start j : Nat) (sv : List Str)
    (hi : line.length ≤ i) :
    tabsplit_loop line fuel i start j sv = .ok (start, j, sv) := by
  cases fuel with
  | zero => rfl
  | succ fuel => simp [tabsplit_loop, Nat.not_lt.2 hi]

theorem char_at_of_drop {line cur : Str} {c : Char} {rest : Str} {start : Nat}
    (h : line.drop start = cur ++ c :: rest) :
    char_at line (start + cur.length) = c ∧ start + cur.length < line.length := by
  have hlen : (line.drop start).length = cur.length + (rest.length + 1) := by
    rw [h]; simp
  rw [List.length_drop] at hlen
  have hlt : start + cur.length < line.length := by omega
  refine ⟨?_, hlt⟩
  have h2 : (line.drop start)[cur.length]? = some c := by
    rw [h, List.getElem?_append_right (le_refl _)]; simp
  rw [List.getElem?_drop] at h2
  simp [char_at, List.getD, h2]

theorem tabsplit_loop_spec (line : Str) :
    ∀ (fuel i start j : Nat) (sv : List Str) (cur rest : Str),
      line.drop start = cur ++ rest → i = start + cur.length → rest.length ≤ fuel →
      ((tabsplit_loop line fuel i start j sv) >>= fun r =>
          write_u r.2.2 r.2.1 (substr line r.1 line.length))
        = write_fields sv j (fields_from cur rest) := by
  intro fuel
  induction fuel with
  | zero =>
    intro i start j sv cur rest hd hi hf
    have hr : rest = [] := List.length_eq_zero.1 (by omega)
    subst hr
    have hlen : (line.drop start).length = cur.length := by rw [hd]; simp
    rw [List.length_drop] at hlen
    have hsub : substr line start line.length = cur := by
      unfold substr; rw [hd, List.append_nil]; exact List.take_of_length_le (by omega)
    simp only [tabsplit_loop, fields_from, write_fields, bind, Except.bind, hsub]
    cases write_u sv j cur <;> rfl
  | succ fuel ih =>
    intro i start j sv cur rest hd hi hf
    match rest, hd, hf with
    | [], hd, _ =>
      have hlen : (line.drop start).length = cur.length := by rw [hd]; simp
      rw [List.length_drop] at hlen
      have hsub : substr line start line.length = cur := by
        unfold substr; rw [hd, List.append_nil]; exact List.take_of_length_le (by omega)
      rw [tabsplit_loop_exit line _ i start j sv (by omega)]
      simp only [fields_from, write_fields, bind, Except.bind, hsub]
      cases write_u sv j cur <;> rfl
    | [c], hd, _ =>
      obtain ⟨hc, hlt⟩ := char_at_of_drop hd
      rw [← hi] at hc hlt
      have hlen : line.length = i + 1 := by
        have : (line.drop start).length = cur.length + 1 := by rw [hd]; simp
        rw [List.length_drop] at this
        omega
      by_cases ht : c = tab
      · have htemp : substr line start (i - start) = cur := by
          simp [substr, hd, hi]
        have hlast : substr line (i + 1) line.length = [] := by
          simp [substr, hlen]
        simp only [tabsplit_loop, hlt, if_true, hc, ht, htemp, fields_from, write_fields,
          bind, Except.bind]
        cases hw : write_u sv j cur with
        | error e => rfl
        | ok sv2 =>
          simp only []
          rw [tabsplit_loop_exit line _ (i + 2) (i + 1) (j + 1) sv2 (by omega)]
          simp only [hlast]
          cases write_u sv2 (j + 1) [] <;> rfl
      · simp only [tabsplit_loop, hlt, if_true, hc, ht, if_false, fields_from]
        rw [tabsplit_loop_exit line _ (i + 1) start j sv (by omega)]
        simp only [write_fields, bind, Except.bind, substr]
        have : List.take line.length (List.drop start line) = cur ++ [c] := by
          rw [hd]; apply List.take_of_length_le; simp; omega
        rw [this]
        cases write_u sv j (cur ++ [c]) <;> rfl
    | c :: d :: rest, hd, hf =>
      obtain ⟨hc, hlt⟩ := char_at_of_drop hd
      rw [← hi] at hc hlt
      by_cases ht : c = tab
      · have htemp : substr line start (i - start) = cur := by
          simp [substr, hd, hi]
        have hd2 : line.drop (i + 1) = [d] ++ rest := by
          have := congrArg (List.drop (cur.length + 1)) hd
          rw [List.drop_drop] at this
          rw [show i + 1 = start + (cur.length + 1) by omega, this]
          rw [show cur.length + 1 = (cur ++ [c]).length by simp]
          rw [show cur ++ c :: d :: rest = (cur ++ [c]) ++ (d :: rest) by simp]
          rw [List.drop_left]
          rfl
        simp only [tabsplit_loop, hlt, if_true, hc, ht, htemp, fields_from, write_fields,
          bind, Except.bind]
        cases hw : write_u sv j cur with
        | error e => rfl
        | ok sv2 =>
          simp only []
          have := ih (i + 2) (i + 1) (j + 1) sv2 [d] rest hd2 (by simp)
            (by simp at hf; omega)
          simpa [bind, Except.bind] using this
      · simp only [tabsplit_loop, hlt, if_true, hc, ht, if_false, fields_from]
        have hd2 : line.drop start = (cur ++ [c]) ++ (d :: rest) := by
          rw [hd]; simp
        exact ih (i + 1) start j sv (cur ++ [c]) (d :: rest) hd2 (by simp; omega)
          (by simp at hf ⊢; omega)

/-- The function `tabsplit` writes the scanned fields into the `elements`
empty strings, and goes outside of them when there are more fields. -/
theorem tabsplit_eq (line : Str) (elements : Nat) :
    tabsplit line elements
      = if (scanned_fields line).length ≤ elements then
          .ok (scanned_fields line
            ++ List.replicate (elements - (scanned_fields line).length) [])
        else .error .undefined_behavior := by
  have hw := write_fields_replicate (scanned_fields line) [] elements
  simp only [List.nil_append, List.length_nil] at hw
  rw [← hw]
  unfold tabsplit
  cases line with
  | nil =>
    simp only [tabsplit_loop, scanned_fields, write_fields, bind, Except.bind, substr,
      List.length_nil, List.drop_nil, List.take_nil]
    cases write_u (List.replicate elements ([] : Str)) 0 [] <;> rfl
  | cons c rest =>
    have := tabsplit_loop_spec (c :: rest) (c :: rest).length 1 0 0
      (List.replicate elements []) [c] rest (by simp) (by simp) (by simp)
    simp only [scanned_fields]
    rw [← this]

theorem fields_from_cons_ne (cur : Str) (c : Char) (rest : Str) (hc : c ≠ tab) :
    fields_from cur (c :: rest) = fields_from (cur ++ [c]) rest := by
  cases rest with
  | nil => simp [fields_from, hc]
  | cons d rest => simp [fields_from, hc]

theorem fields_from_tab_cons (cur : Str) (d : Char) (rest : Str) :
    fields_from cur (tab :: d :: rest) = cur :: fields_from [d] rest := by
  simp [fields_from]

theorem fields_from_tab_nil (cur : Str) : fields_from cur [tab] = [cur, []] := by
  simp [fields_from]

theorem fields_from_length_pos :
    ∀ (n : Nat) (cur r : Str), r.length ≤ n → 0 < (fields_from cur r).length := by
  intro n
  induction n with
  | zero =>
    intro cur r hr
    have : r = [] := List.length_eq_zero.1 (by omega)
    subst this; simp [fields_from]
  | succ n ih =>
    intro cur r hr
    match r, hr with
    | [], _ => simp [fields_from]
    | [c], _ => by_cases hc : c = tab <;> simp [fields_from, hc]
    | c :: d :: r, hr =>
      by_cases hc : c = tab
      · simp [fields_from, hc]
      · simp only [fields_from, hc, if_false]
        exact ih _ _ (by simp at hr ⊢; omega)

theorem fields_from_ne_nil (cur rest : Str) : fields_from cur rest ≠ [] := by
  intro h
  have := fields_from_length_pos rest.length cur rest (le_refl _)
  rw [h] at this
  simp at this

theorem tab_join_cons (f : Str) (fs : List Str) (h : fs ≠ []) :
    tab_join (f :: fs) = f ++ tab :: tab_join fs := by
  cases fs with
  | nil => exact absurd rfl h
  | cons g fs => rfl

theorem no_adjacent_tabs_cons_cons (c d : Char) (rest : Str) :
    no_adjacent_tabs (c :: d :: rest) = true
      ↔ ¬ (c = tab ∧ d = tab) ∧ no_adjacent_tabs (d :: rest) = true := by
  simp only [no_adjacent_tabs, Bool.and_eq_true, Bool.not_eq_true', Bool.and_eq_false_imp,
    decide_eq_true_eq, decide_eq_false_iff_not, not_and]

theorem no_adjacent_tabs_tail (c : Char) (rest : Str)
    (h : no_adjacent_tabs (c :: rest) = true) : no_adjacent_tabs rest = true := by
  cases rest with
  | nil => rfl
  | cons d rest => exact ((no_adjacent_tabs_cons_cons c d rest).1 h).2

/-- On a text without two adjacent tabs, after a tab-free part `cur`, the scan
of `tabsplit` yields tab-free fields whose tab-join is the text, one more than
there are tabs. -/
theorem fields_from_props :
    ∀ (n : Nat) (cur rest : Str), rest.length ≤ n → tab ∉ cur → no_adjacent_tabs rest = true →
      (∀ f ∈ fields_from cur rest, tab ∉ f)
        ∧ tab_join (fields_from cur rest) = cur ++ rest
        ∧ (fields_from cur rest).length = rest.count tab + 1 := by
  intro n
  induction n with
  | zero =>
    intro cur rest hr hcur _
    have : rest = [] := List.length_eq_zero.1 (by omega)
    subst this
    simp [fields_from, tab_join, hcur]
  | succ n ih =>
    intro cur rest hr hcur hadj
    match rest, hr, hadj with
    | [], _, _ => simp [fields_from, tab_join, hcur]
    | [c], _, _ =>
      by_cases hc : c = tab
      · subst hc
        simp [fields_from, tab_join, hcur]
      · have hc2 : tab ≠ c := fun h => hc h.symm
        simp [fields_from, tab_join, hcur, hc, hc2]
    | c :: d :: rest, hr, hadj =>
      rw [no_adjacent_tabs_cons_cons] at hadj
      by_cases hc : c = tab
      · subst hc
        have hd : d ≠ tab := fun h => hadj.1 ⟨rfl, h⟩
        have hd2 : tab ≠ d := fun h => hd h.symm
        have hadj2 : no_adjacent_tabs rest = true := no_adjacent_tabs_tail d rest hadj.2
        obtain ⟨h1, h2, h3⟩ := ih [d] rest (by simp at hr; omega) (by simp [hd2]) hadj2
        rw [fields_from_tab_cons]
        refine ⟨?_, ?_, ?_⟩
        · intro f hf
          rcases List.mem_cons.1 hf with rfl | hf
          · exact hcur
          · exact h1 f hf
        · rw [tab_join_cons _ _ (fields_from_ne_nil _ _), h2]; simp
        · simp [h3, hd2]
      · have hc2 : tab ≠ c := fun h => hc h.symm
        obtain ⟨h1, h2, h3⟩ := ih (cur ++ [c]) (d :: rest) (by simp at hr ⊢; omega)
          (by simp [hcur, hc2]) hadj.2
        rw [fields_from_cons_ne _ _ _ hc]
        refine ⟨h1, by rw [h2]; simp, ?_⟩
        rw [h3, List.count_cons_of_ne hc2]

/-! ### Matrices -/

theorem checked_at_eq_ok {α : Type} {v : List α} {i : Nat} {x : α} (h : v[i]? = some x) :
    at_ v i = .ok x := by
  simp [at_, h]

theorem read_u_eq_ok {α : Type} {v : List α} {i : Nat} {x : α} (h : v[i]? = some x) :
    read_u v i = .ok x := by
  simp [read_u, h]

theorem write_u_eq_ok {α : Type} {v : List α} {i : Nat} (x : α) (h : i < v.length) :
    write_u v i x = .ok (v.set i x) := by
  simp [write_u, h]

/-- Two cells of a column-major matrix with `n` rows share an offset only when
they are the same cell. -/
theorem offset_inj {n r j c i : Nat} (hr : r < n) (hj : j < n)
    (h : r + n * c = j + n * i) : r = j ∧ c = i := by
  rcases Nat.lt_trichotomy c i with hlt | heq | hgt
  · have := Nat.mul_le_mul_left n (Nat.succ_le_of_lt hlt)
    rw [Nat.mul_succ] at this
    omega
  · subst heq
    exact ⟨by omega, rfl⟩
  · have := Nat.mul_le_mul_left n (Nat.succ_le_of_lt hgt)
    rw [Nat.mul_succ] at this
    omega

theorem offset_lt {n G r c : Nat} (hr : r < n) (hc : c < G) : r + n * c < n * G := by
  have := Nat.mul_le_mul_left n (Nat.succ_le_of_lt hc)
  rw [Nat.mul_succ] at this
  omega

/-- The inner loop of `DataFrame_to_StringMatrix` over rows `j .. j+m-1` of
column `i`: it succeeds and changes exactly those cells. -/
theorem fill_column_spec (sv : List RString) (i G : Nat) (hi : i < G) :
    ∀ (m j : Nat) (sm : StringMatrix), j + m ≤ sv.length → j + m ≤ sm.nrow →
      sm.data.length = sm.nrow * G →
      ∃ sm2, fill_column sv i (List.range' j m) sm = .ok sm2 ∧ sm2.nrow = sm.nrow
        ∧ sm2.ncol = sm.ncol ∧ sm2.data.length = sm.data.length
        ∧ ∀ r c, r < sm.nrow → sm2.data[r + sm.nrow * c]?
            = if c = i ∧ j ≤ r ∧ r < j + m then sv[r]? else sm.data[r + sm.nrow * c]? := by
  intro m
  induction m with
  | zero =>
    intro j sm _ _ _
    refine ⟨sm, rfl, rfl, rfl, rfl, ?_⟩
    intro r c _
    have : ¬ (c = i ∧ j ≤ r ∧ r < j + 0) := by omega
    rw [if_neg this]
  | succ m ih =>
    intro j sm hsv hn hlen
    have hj : j < sv.length := by omega
    have hoff : j + sm.nrow * i < sm.data.length := by
      rw [hlen]; exact offset_lt (by omega) hi
    obtain ⟨sm2, h1, h2, h3, h4, h5⟩ :=
      ih (j + 1) { sm with data := sm.data.set (j + sm.nrow * i) sv[j] }
        (by omega) (by simp; omega) (by simp [hlen])
    refine ⟨sm2, ?_, h2, h3, by simpa using h4, ?_⟩
    · simp only [List.range'_succ, fill_column, checked_at_eq_ok (List.getElem?_eq_getElem hj),
        StringMatrix.set, write_u_eq_ok _ hoff, bind, Except.bind]
      exact h1
    · intro r c hr
      rw [h5 r c hr]
      simp only []
      by_cases hcase : c = i ∧ j + 1 ≤ r ∧ r < j + 1 + m
      · have : c = i ∧ j ≤ r ∧ r < j + (m + 1) := by omega
        simp [hcase, this]
      · simp only [hcase, if_false]
        by_cases hcur : c = i ∧ r = j
        · obtain ⟨rfl, rfl⟩ := hcur
          have : c = c ∧ r ≤ r ∧ r < r + (m + 1) := by omega
          simp [this, List.getElem?_set, hoff, List.getElem?_eq_getElem hj]
        · have hne : j + sm.nrow * i ≠ r + sm.nrow * c := by
            intro heq
            have := offset_inj hr (by omega) heq.symm
            exact hcur ⟨this.2, this.1⟩
          have : ¬ (c = i ∧ j ≤ r ∧ r < j + (m + 1)) := by omega
          simp [this, List.getElem?_set_ne hne]

theorem DataFrame.at_of_lt {R : Type} (df : DataFrame R) (i : Nat) (hi : i < df.length) :
    df.at i = .ok df[i].2 := by
  simp [DataFrame.at, List.getElem?_eq_getElem hi]

/-- The outer loop of `DataFrame_to_StringMatrix` over columns `i .. i+m-1` of
a data frame whose columns all have `n` rows. -/
theorem fill_matrix_spec {R : Type} (h : Host R) (df : DataFrame R) (n : Nat)
    (hall : ∀ c ∈ df, (c.2.as_strings h).length = n) :
    ∀ (m i : Nat) (sm : StringMatrix), i + m ≤ df.length → sm.nrow = n →
      sm.data.length = n * df.length →
      ∃ sm2, fill_matrix h df (List.range' i m) sm = .ok sm2 ∧ sm2.nrow = n
        ∧ sm2.ncol = sm.ncol ∧ sm2.data.length = sm.data.length
        ∧ ∀ r c, r < n → sm2.data[r + n * c]?
            = if i ≤ c ∧ c < i + m then df.cell h r c else sm.data[r + n * c]? := by
  intro m
  induction m with
  | zero =>
    intro i sm _ hn _
    refine ⟨sm, rfl, hn, rfl, rfl, ?_⟩
    intro r c _
    have : ¬ (i ≤ c ∧ c < i + 0) := by omega
    rw [if_neg this]
  | succ m ih =>
    intro i sm hi hn hlen
    have hi2 : i < df.length := by omega
    have hsv : (df[i].2.as_strings h).length = n := hall _ (List.getElem_mem _)
    obtain ⟨sm1, f1, f2, f3, f4, f5⟩ := fill_column_spec (df[i].2.as_strings h) i df.length
      hi2 n 0 sm (by omega) (by omega) (by rw [hn]; exact hlen)
    obtain ⟨sm2, g1, g2, g3, g4, g5⟩ := ih (i + 1) sm1 (by omega) (by omega) (by omega)
    refine ⟨sm2, ?_, g2, by omega, by omega, ?_⟩
    · simp only [List.range'_succ, fill_matrix, DataFrame.at_of_lt df i hi2, bind,
        Except.bind, hsv, List.range_eq_range', f1]
      exact g1
    · intro r c hr
      rw [g5 r c hr]
      have f5rc := f5 r c (by omega)
      rw [hn] at f5rc
      by_cases hcase : i + 1 ≤ c ∧ c < i + 1 + m
      · have : i ≤ c ∧ c < i + (m + 1) := by omega
        rw [if_pos hcase, if_pos this]
      · rw [if_neg hcase, f5rc]
        by_cases hcur : c = i
        · subst hcur
          have h1 : c = c ∧ 0 ≤ r ∧ r < 0 + n := by omega
          have h2 : c ≤ c ∧ c < c + (m + 1) := by omega
          rw [if_pos h1, if_pos h2]
          simp [DataFrame.cell, List.getElem?_eq_getElem hi2]
        · have h1 : ¬ (c = i ∧ 0 ≤ r ∧ r < 0 + n) := by omega
          have h2 : ¬ (i ≤ c ∧ c < i + (m + 1)) := by omega
          rw [if_neg h1, if_neg h2]

/-- On a data frame with at least one column, all of `n` rows,
`DataFrame_to_StringMatrix` returns the matrix of its cells. -/
theorem DataFrame_to_StringMatrix_spec {R : Type} (h : Host R) (df : DataFrame R) (n : Nat)
    (hne : df ≠ []) (hall : ∀ c ∈ df, (c.2.as_strings h).length = n) :
    ∃ sm, DataFrame_to_StringMatrix h df = .ok sm ∧ sm.nrow = n
      ∧ sm.data.length = n * df.length
      ∧ ∀ r c, r < n → c < df.length → sm.data[r + n * c]? = df.cell h r c := by
  have h0 : 0 < df.length := List.length_pos.2 hne
  have hsv : (df[0].2.as_strings h).length = n := hall _ (List.getElem_mem _)
  obtain ⟨sm, f1, f2, _, f4, f5⟩ := fill_matrix_spec h df n hall df.length 0
    (StringMatrix.create n df.length) (by omega) rfl (by simp [StringMatrix.create])
  refine ⟨sm, ?_, f2, by simpa [StringMatrix.create] using f4, ?_⟩
  · simp only [DataFrame_to_StringMatrix, DataFrame.at_of_lt df 0 h0, bind, Except.bind, hsv,
      List.range_eq_range']
    exact f1
  · intro r c hr hc
    rw [f5 r c hr, if_pos (by omega)]

theorem DataFrame_to_StringMatrix_nil {R : Type} (h : Host R) :
    DataFrame_to_StringMatrix h ([] : DataFrame R) = .error .index_out_of_bounds := rfl

/-! ### The writers -/

theorem write_gt_spec (gt_cm : StringMatrix) (i : Nat) (f : Nat → RString) :
    ∀ (js : List Nat) (myfile : Str), (∀ j ∈ js, gt_cm.get i j = .ok (f j)) →
      write_gt gt_cm i js myfile = .ok (myfile ++ gt_text (js.map f)) := by
  intro js
  induction js with
  | nil => intro myfile _; simp [write_gt, gt_text]
  | cons j js ih =>
    intro myfile hall
    simp only [write_gt, hall j (by simp), bind, Except.bind]
    rw [ih _ (fun k hk => hall k (by simp [hk]))]
    simp [gt_text]

theorem write_gt_gz_spec (gt_cm : StringMatrix) (i : Nat) (f : Nat → RString) :
    ∀ (js : List Nat) (tmpstring : Str), (∀ j ∈ js, gt_cm.get i j = .ok (f j)) →
      write_gt_gz gt_cm i js tmpstring = .ok (tmpstring ++ gt_text (js.map f)) := by
  intro js
  induction js with
  | nil => intro tmpstring _; simp [write_gt_gz, gt_text]
  | cons j js ih =>
    intro tmpstring hall
    simp only [write_gt_gz, hall j (by simp), bind, Except.bind]
    rw [ih _ (fun k hk => hall k (by simp [hk]))]
    simp [gt_text]

theorem at_getD {v : List RString} {n i : Nat} (hv : v.length = n) (hi : i < n) :
    at_ v i = .ok (v.getD i none) := by
  apply checked_at_eq_ok
  rw [List.getD_eq_getElem?_getD, List.getElem?_eq_getElem (by omega)]
  rfl

/-- The row branch of `write_vcf_body` on row `i` of a table with `n` rows and
at least one genotype column appends the text of the row. -/
theorem write_vcf_body_row_spec {R : Type} (h : Host R) (c : FixColumns) (gt : DataFrame R)
    (gt_cm : StringMatrix) (n i : Nat) (hc : c.rows n) (hi : i < n) (hG : 1 ≤ gt.length)
    (hcm : ∀ j, j < gt.length → gt_cm.get i j = .ok ((gt.cell h i j).getD none))
    (myfile : Str) :
    write_vcf_body_row c gt_cm gt.length i myfile
      = .ok (myfile ++ (table_row h c gt i).text) := by
  obtain ⟨h1, h2, h3, h4, h5, h6, h7, h8⟩ := hc
  have hrange : List.range gt.length = 0 :: List.range' 1 (gt.length - 1) := by
    rw [List.range_eq_range']
    conv_lhs => rw [show gt.length = (gt.length - 1) + 1 by omega]
    rw [List.range'_succ]
  have hgt := write_gt_spec gt_cm i (fun j => (gt.cell h i j).getD none)
    (List.range' 1 (gt.length - 1))
  simp only [write_vcf_body_row, at_getD h1 hi, at_getD h2 hi, at_getD h3 hi, at_getD h4 hi,
    at_getD h5 hi, at_getD h6 hi, at_getD h7 hi, at_getD h8 hi, hcm 0 (by omega), bind,
    Except.bind]
  rw [hgt _ (fun j hj => hcm j (by simp [List.mem_range'] at hj; omega))]
  simp only [Row.text, table_row, hrange, gt_text, na_dot, List.map_cons, List.flatMap_cons]
  split_ifs <;> simp

/-- The row branch of `write_vcf_body_gz` on row `i` of a table with `n` rows
appends the text of the row. -/
theorem write_vcf_body_gz_row_spec {R : Type} (h : Host R) (c : FixColumns)
    (gt : DataFrame R) (gt_cm : StringMatrix) (n i : Nat) (hc : c.rows n) (hi : i < n)
    (hcm : ∀ j, j < gt.length → gt_cm.get i j = .ok ((gt.cell h i j).getD none))
    (fi : Str) :
    write_vcf_body_gz_row c gt_cm gt.length i fi
      = .ok (fi ++ (table_row h c gt i).text_gz) := by
  obtain ⟨h1, h2, h3, h4, h5, h6, h7, h8⟩ := hc
  have hgt := write_gt_gz_spec gt_cm i (fun j => (gt.cell h i j).getD none)
    (List.range gt.length)
  simp only [write_vcf_body_gz_row, at_getD h1 hi, at_getD h2 hi, at_getD h3 hi,
    at_getD h4 hi, at_getD h5 hi, at_getD h6 hi, at_getD h7 hi, at_getD h8 hi, bind,
    Except.bind]
  rw [hgt _ (fun j hj => hcm j (by simpa using hj))]
  simp only [Row.text_gz, table_row, gt_text, na_dot]
  split_ifs <;> simp

theorem out_string_eq_PASS (x : RString) : (out_string x == PASS) = decide (x = some PASS) := by
  cases x with
  | none => decide
  | some t =>
    by_cases ht : t = PASS
    · simp [out_string, ht]
    · simp [out_string, ht]

theorem write_vcf_body_loop_spec (c : FixColumns) (gt_cm : StringMatrix) (ncol : Nat)
    (mask : Int) (fl : Nat → RString) (text : Nat → Str) :
    ∀ (rows : List Nat) (myfile : Str), (∀ i ∈ rows, at_ c.filter i = .ok (fl i)) →
      (∀ i ∈ rows, ∀ out, write_vcf_body_row c gt_cm ncol i out = .ok (out ++ text i)) →
      write_vcf_body_loop c gt_cm ncol mask rows myfile
        = .ok (myfile ++ (rows.filter
            (fun i => !(decide (mask = 1) && decide (fl i = some PASS)))).flatMap text) := by
  intro rows
  induction rows with
  | nil => intro myfile _ _; simp [write_vcf_body_loop]
  | cons i rows ih =>
    intro myfile hf hrow
    have ih2 := fun out => ih out (fun k hk => hf k (by simp [hk]))
      (fun k hk => hrow k (by simp [hk]))
    by_cases hm : mask = 1
    · by_cases hp : fl i = some PASS
      · simp [write_vcf_body_loop, hm, hf i (by simp), out_string_eq_PASS, hp, bind,
          Except.bind, List.filter_cons]
        simpa [hm] using ih2 myfile
      · simp [write_vcf_body_loop, hm, hf i (by simp), out_string_eq_PASS, hp, bind,
          Except.bind, List.filter_cons, hrow i (by simp)]
        simpa [hm] using ih2 (myfile ++ text i)
    · simp [write_vcf_body_loop, hm, bind, Except.bind, List.filter_cons,
        hrow i (by simp)]
      simpa [hm] using ih2 (myfile ++ text i)

theorem write_vcf_body_gz_loop_spec (c : FixColumns) (gt_cm : StringMatrix) (ncol : Nat)
    (mask : Int) (fl : Nat → RString) (text : Nat → Str) :
    ∀ (rows : List Nat) (fi : Str), (∀ i ∈ rows, at_ c.filter i = .ok (fl i)) →
      (∀ i ∈ rows, ∀ out, write_vcf_body_gz_row c gt_cm ncol i out = .ok (out ++ text i)) →
      write_vcf_body_gz_loop c gt_cm ncol mask rows fi
        = .ok (fi ++ (rows.filter
            (fun i => !(decide (mask = 1) && !decide (fl i = some PASS)))).flatMap text) := by
  intro rows
  induction rows with
  | nil => intro fi _ _; simp [write_vcf_body_gz_loop]
  | cons i rows ih =>
    intro fi hf hrow
    have ih2 := fun out => ih out (fun k hk => hf k (by simp [hk]))
      (fun k hk => hrow k (by simp [hk]))
    by_cases hm : mask = 1
    · by_cases hp : fl i = some PASS
      · simp [write_vcf_body_gz_loop, hm, hf i (by simp), bne, out_string_eq_PASS, hp, bind,
          Except.bind, List.filter_cons, hrow i (by simp)]
        simpa [hm] using ih2 (fi ++ text i)
      · simp [write_vcf_body_gz_loop, hm, hf i (by simp), bne, out_string_eq_PASS, hp, bind,
          Except.bind, List.filter_cons]
        simpa [hm] using ih2 fi
    · simp [write_vcf_body_gz_loop, hm, bind, Except.bind, List.filter_cons,
        hrow i (by simp)]
      simpa [hm] using ih2 (fi ++ text i)

theorem matrix_get_cell {R : Type} (h : Host R) (gt : DataFrame R) (n : Nat)
    (hgt : gt.rows h n) (sm : StringMatrix) (hn : sm.nrow = n)
    (hcells : ∀ r c, r < n → c < gt.length → sm.data[r + n * c]? = gt.cell h r c)
    (i j : Nat) (hi : i < n) (hj : j < gt.length) :
    sm.get i j = .ok ((gt.cell h i j).getD none) := by
  unfold StringMatrix.get
  apply read_u_eq_ok
  rw [hn, hcells i j hi hj]
  have hlen : (gt[j].2.as_strings h).length = n := hgt _ (List.getElem_mem _)
  simp [DataFrame.cell, List.getElem?_eq_getElem hj,
    List.getElem?_eq_getElem (show i < (gt[j].2.as_strings h).length by omega)]

/-- The text that `write_vcf_body` appends for a table with `n` rows and at
least one genotype column: the rows not masked, in order. -/
theorem write_vcf_body_eq {R : Type} (h : Host R) (fix gt : DataFrame R) (file : Str)
    (mask : Int) (n : Nat) (c : FixColumns) (hfix : fix_columns h fix = .ok c)
    (hc : c.rows n) (hgt : gt.rows h n) (hG : gt ≠ []) :
    write_vcf_body h fix gt file mask
      = .ok (file ++ ((List.range n).filter
          (fun i => !(decide (mask = 1) && decide (c.filter.getD i none = some PASS)))).flatMap
            (fun i => (table_row h c gt i).text)) := by
  obtain ⟨sm, hsm, hn, _, hcells⟩ := DataFrame_to_StringMatrix_spec h gt n hG hgt
  have hlen : 1 ≤ gt.length := List.length_pos.2 hG
  simp only [write_vcf_body, hfix, hsm, bind, Except.bind, hc.1]
  exact write_vcf_body_loop_spec c sm gt.length mask (fun i => c.filter.getD i none) _ _ file
    (fun i hi => at_getD hc.2.2.2.2.2.2.1 (by simpa using hi))
    (fun i hi out => write_vcf_body_row_spec h c gt sm n i hc (by simpa using hi) hlen
      (fun j hj => matrix_get_cell h gt n hgt sm hn hcells i j (by simpa using hi) hj) out)

/-- The uncompressed text that `write_vcf_body_gz` appends for a table with `n`
rows and at least one genotype column: the rows not masked, in order. -/
theorem write_vcf_body_gz_eq {R : Type} (h : Host R) (fix gt : DataFrame R) (file : Str)
    (mask : Int) (n : Nat) (c : FixColumns) (hfix : fix_columns h fix = .ok c)
    (hc : c.rows n) (hgt : gt.rows h n) (hG : gt ≠ []) :
    write_vcf_body_gz h fix gt file mask
      = .ok (file ++ ((List.range n).filter
          (fun i => !(decide (mask = 1) && !decide (c.filter.getD i none = some PASS)))).flatMap
            (fun i => (table_row h c gt i).text_gz)) := by
  obtain ⟨sm, hsm, hn, _, hcells⟩ := DataFrame_to_StringMatrix_spec h gt n hG hgt
  simp only [write_vcf_body_gz, hfix, hsm, bind, Except.bind, hc.1]
  exact write_vcf_body_gz_loop_spec c sm gt.length mask (fun i => c.filter.getD i none) _ _
    file (fun i hi => at_getD hc.2.2.2.2.2.2.1 (by simpa using hi))
    (fun i hi out => write_vcf_body_gz_row_spec h c gt sm n i hc (by simpa using hi)
      (fun j hj => matrix_get_cell h gt n hgt sm hn hcells i j (by simpa using hi) hj) out)

/-! ### `tabsplit` on joined fields -/

theorem tab_join_eq (f : Str) (fs : List Str) :
    tab_join (f :: fs) = f ++ fs.flatMap (fun g => tab :: g) := by
  induction fs generalizing f with
  | nil => simp [tab_join]
  | cons g gs ih => rw [tab_join_cons _ _ (by simp), ih g]; simp

theorem fields_from_append (f : Str) : ∀ (cur rest : Str), tab ∉ f →
    fields_from cur (f ++ rest) = fields_from (cur ++ f) rest := by
  induction f with
  | nil => intro cur rest _; simp
  | cons a f ih =>
    intro cur rest hf
    have ha : a ≠ tab := fun h => hf (by simp [h])
    have hf2 : tab ∉ f := fun h => hf (by simp [h])
    rw [List.cons_append, fields_from_cons_ne _ _ _ ha, ih _ _ hf2]
    simp

theorem fields_from_flatMap (fs : List Str) : ∀ (cur : Str),
    (∀ g ∈ fs, g ≠ [] ∧ tab ∉ g) →
      fields_from cur (fs.flatMap (fun g => tab :: g)) = cur :: fs := by
  induction fs with
  | nil => intro cur _; simp [fields_from]
  | cons g gs ih =>
    intro cur hall
    obtain ⟨hne, hg⟩ := hall g (by simp)
    cases g with
    | nil => exact absurd rfl hne
    | cons d g =>
      have hg2 : tab ∉ g := fun h => hg (by simp [h])
      rw [List.flatMap_cons, List.cons_append, List.cons_append, fields_from_tab_cons,
        fields_from_append g _ _ hg2, ih _ (fun x hx => hall x (by simp [hx]))]
      simp

/-- On the tab-join of non-empty tab-free fields, `tabsplit` with their number
returns the fields. -/
theorem tabsplit_tab_join (r : List Str) (hne : r ≠ [])
    (hall : ∀ f ∈ r, f ≠ [] ∧ tab ∉ f) :
    tabsplit (tab_join r) r.length = .ok r := by
  cases r with
  | nil => exact absurd rfl hne
  | cons f fs =>
    obtain ⟨hfne, hf⟩ := hall f (by simp)
    cases f with
    | nil => exact absurd rfl hfne
    | cons c f =>
      have hf2 : tab ∉ f := fun h => hf (by simp [h])
      have hs : scanned_fields (tab_join ((c :: f) :: fs)) = (c :: f) :: fs := by
        rw [tab_join_eq, List.cons_append]
        simp only [scanned_fields]
        rw [fields_from_append f _ _ hf2,
          fields_from_flatMap fs _ (fun x hx => hall x (by simp [hx]))]
        simp
      rw [tabsplit_eq, hs]
      simp

/-! ### `vcf_body` -/

theorem read_u_getD {α : Type} {v : List α} {k : Nat} (d : α) (hk : k < v.length) :
    read_u v k = .ok (v.getD k d) := by
  apply read_u_eq_ok
  rw [List.getD_eq_getElem?_getD, List.getElem?_eq_getElem hk]
  rfl

/-- The loop of `vcf_body` that copies the fields `8 + j .. 8 + j + m - 1` into
row `i` of the matrix: it succeeds and changes exactly those cells. -/
theorem gt_row_spec (temps : List Str) (i G : Nat) :
    ∀ (m j : Nat) (gt : StringMatrix), 8 + j + m ≤ temps.length → j + m ≤ G →
      i < gt.nrow → gt.data.length = gt.nrow * G →
      ∃ gt2, gt_row temps i (List.range' (8 + j) m) gt = .ok gt2 ∧ gt2.nrow = gt.nrow
        ∧ gt2.ncol = gt.ncol ∧ gt2.data.length = gt.data.length
        ∧ ∀ r c, r < gt.nrow → gt2.data[r + gt.nrow * c]?
            = if r = i ∧ j ≤ c ∧ c < j + m then some (some (temps.getD (c + 8) []))
              else gt.data[r + gt.nrow * c]? := by
  intro m
  induction m with
  | zero =>
    intro j gt _ _ _ _
    refine ⟨gt, rfl, rfl, rfl, rfl, ?_⟩
    intro r c _
    have : ¬ (r = i ∧ j ≤ c ∧ c < j + 0) := by omega
    rw [if_neg this]
  | succ m ih =>
    intro j gt ht hG hi hlen
    have hoff : i + gt.nrow * j < gt.data.length := by
      rw [hlen]; exact offset_lt hi (by omega)
    obtain ⟨gt2, h1, h2, h3, h4, h5⟩ :=
      ih (j + 1) { gt with data := gt.data.set (i + gt.nrow * j) (some (temps.getD (8 + j) [])) }
        (by omega) (by omega) hi (by simp [hlen])
    refine ⟨gt2, ?_, h2, h3, by simpa using h4, ?_⟩
    · simp only [List.range'_succ, gt_row, read_u_getD [] (show 8 + j < temps.length by omega),
        StringMatrix.set, show 8 + j - 8 = j by omega, write_u_eq_ok _ hoff, bind,
        Except.bind]
      rw [show 8 + j + 1 = 8 + (j + 1) by omega]
      exact h1
    · intro r c hr
      rw [h5 r c hr]
      simp only []
      by_cases hcase : r = i ∧ j + 1 ≤ c ∧ c < j + 1 + m
      · have : r = i ∧ j ≤ c ∧ c < j + (m + 1) := by omega
        rw [if_pos hcase, if_pos this]
      · rw [if_neg hcase]
        by_cases hcur : r = i ∧ c = j
        · obtain ⟨rfl, rfl⟩ := hcur
          have : r = r ∧ c ≤ c ∧ c < c + (m + 1) := by omega
          rw [if_pos this]
          simp [List.getElem?_set, hoff, Nat.add_comm]
        · have hne : i + gt.nrow * j ≠ r + gt.nrow * c := by
            intro heq
            have := offset_inj hr hi heq.symm
            exact hcur this
          have : ¬ (r = i ∧ j ≤ c ∧ c < j + (m + 1)) := by omega
          rw [if_neg this, List.getElem?_set_ne hne]

theorem pos_value_of_record {R : Type} {h : Host R} {N : Nat} {r : List Str}
    (hr : Record h N r) :
    pos_value (r.getD 1 []) = .ok (pos_cell (r.getD 1 []))
      ∧ (pos_cell (r.getD 1 [])).map int_to_string = some (r.getD 1 []) := by
  have h4 := hr.2.2.2.1
  unfold pos_cell
  cases hp : pos_value (r.getD 1 []) with
  | error e => rw [hp] at h4; simp [Except.map] at h4
  | ok v =>
    rw [hp] at h4
    simp only [Except.map, Except.ok.injEq] at h4
    exact ⟨rfl, h4⟩

/-- One iteration of the body loop of `vcf_body` on a record: row `i` of every
vector and of the matrix is written. -/
theorem vcf_body_row_spec {R : Type} (h : Host R) (stats : Stats) (N n : Nat)
    (hcols : stats.columns = N) (hN : 8 ≤ N) (b : Body R) (i : Nat) (r : List Str)
    (hr : Record h N r) (hi : i < n) (hb : b.rows n (N - 8)) :
    ∃ b1, vcf_body_row h stats b i (tab_join r) = .ok b1 ∧ RowPost h N n r i b b1 := by
  obtain ⟨h1, h2, h3, h4, h5, h6, h7, h8, h9, h10⟩ := hb
  have hlen : r.length = N := hr.1
  have hne : r ≠ [] := by
    intro hnil; rw [hnil] at hlen; simp at hlen; omega
  have hsplit : tabsplit (tab_join r) stats.columns = .ok r := by
    rw [hcols, ← hlen]; exact tabsplit_tab_join r hne hr.2.1
  obtain ⟨gt2, g1, g2, g3, g4, g5⟩ := gt_row_spec r i (N - 8) (N - 8) 0 b.gt
    (by omega) (by omega) (by omega) (by rw [h9]; exact h10)
  have g1b : gt_row r i (List.range' 8 (stats.columns - 8)) b.gt = .ok gt2 := by
    rw [hcols]; simpa using g1
  have r0 := read_u_getD ([] : Str) (show 0 < r.length by omega)
  have r1 := read_u_getD ([] : Str) (show 1 < r.length by omega)
  have r2 := read_u_getD ([] : Str) (show 2 < r.length by omega)
  have r3 := read_u_getD ([] : Str) (show 3 < r.length by omega)
  have r4 := read_u_getD ([] : Str) (show 4 < r.length by omega)
  have r5 := read_u_getD ([] : Str) (show 5 < r.length by omega)
  have r6 := read_u_getD ([] : Str) (show 6 < r.length by omega)
  have r7 := read_u_getD ([] : Str) (show 7 < r.length by omega)
  have w0 := write_u_eq_ok (na_string (r.getD 0 [])) (show i < b.chrom.length by rw [h1]; exact hi)
  have w1 := write_u_eq_ok (pos_cell (r.getD 1 [])) (show i < b.pos.length by rw [h2]; exact hi)
  have w2 := write_u_eq_ok (na_string (r.getD 2 [])) (show i < b.id.length by rw [h3]; exact hi)
  have w3 := write_u_eq_ok (na_string (r.getD 3 [])) (show i < b.ref.length by rw [h4]; exact hi)
  have w4 := write_u_eq_ok (na_string (r.getD 4 [])) (show i < b.alt.length by rw [h5]; exact hi)
  have w5 := write_u_eq_ok (qual_value h (r.getD 5 [])) (show i < b.qual.length by rw [h6]; exact hi)
  have w6 := write_u_eq_ok (na_string (r.getD 6 [])) (show i < b.filter.length by rw [h7]; exact hi)
  have w7 := write_u_eq_ok (na_string (r.getD 7 [])) (show i < b.info.length by rw [h8]; exact hi)
  have hp := (pos_value_of_record hr).1
  refine ⟨{ chrom := b.chrom.set i (na_string (r.getD 0 [])),
            pos := b.pos.set i (pos_cell (r.getD 1 [])),
            id := b.id.set i (na_string (r.getD 2 [])),
            ref := b.ref.set i (na_string (r.getD 3 [])),
            alt := b.alt.set i (na_string (r.getD 4 [])),
            qual := b.qual.set i (qual_value h (r.getD 5 [])),
            filter := b.filter.set i (na_string (r.getD 6 [])),
            info := b.info.set i (na_string (r.getD 7 [])),
            gt := gt2 }, ?_, ?_⟩
  · unfold vcf_body_row
    simp only [bind, Except.bind]
    rw [hsplit]; simp only []
    rw [r0]; simp only []
    rw [w0]; simp only []
    rw [r1]; simp only []
    rw [hp]; simp only []
    rw [w1]; simp only []
    rw [r2]; simp only []
    rw [w2]; simp only []
    rw [r3]; simp only []
    rw [w3]; simp only []
    rw [r4]; simp only []
    rw [w4]; simp only []
    rw [r5]; simp only []
    rw [w5]; simp only []
    rw [r6]; simp only []
    rw [w6]; simp only []
    rw [r7]; simp only []
    rw [w7]; simp only []
    rw [g1b]
  · unfold RowPost
    refine ⟨rfl, rfl, rfl, rfl, rfl, rfl, rfl, rfl, g2.trans h9, g3, g4, ?_⟩
    intro r2 c hr2
    have := g5 r2 c (by rw [h9]; exact hr2)
    rw [h9] at this
    simp only []
    rw [this]
    simp

theorem take_succ_set {α : Type} (v : List α) (i : Nat) (x : α) (hi : i < v.length) :
    (v.set i x).take (i + 1) = v.take i ++ [x] := by
  have hA : (v.take i).length = i := by simp; omega
  rw [List.set_eq_take_cons_drop x hi]
  conv_lhs => rw [show i + 1 = (v.take i).length + 1 by rw [hA]]
  rw [List.take_append]; simp

theorem loop_vector_step {α : Type} (v v1 v2 : List α) (i n : Nat) (x : α) (l : List α)
    (hv : v.length = n) (hi : i < n) (e : v1 = v.set i x) (f : v2 = v1.take (i + 1) ++ l) :
    v2 = v.take i ++ x :: l := by
  rw [f, e, take_succ_set v i x (by rw [hv]; exact hi)]; simp

theorem loop_vector_nil {α : Type} (v : List α) (i : Nat) (hv : v.length = i) :
    v = v.take i ++ [] := by
  rw [List.append_nil, List.take_of_length_le (by rw [hv])]

theorem RowPost.rows {R : Type} {h : Host R} {N n : Nat} {r : List Str} {i : Nat}
    {b b1 : Body R} (hp : RowPost h N n r i b b1) (hb : b.rows n (N - 8)) :
    b1.rows n (N - 8) := by
  obtain ⟨e1, e2, e3, e4, e5, e6, e7, e8, e9, _, e11, _⟩ := hp
  obtain ⟨h1, h2, h3, h4, h5, h6, h7, h8, _, h10⟩ := hb
  exact ⟨by rw [e1, List.length_set]; exact h1, by rw [e2, List.length_set]; exact h2,
    by rw [e3, List.length_set]; exact h3, by rw [e4, List.length_set]; exact h4,
    by rw [e5, List.length_set]; exact h5, by rw [e6, List.length_set]; exact h6,
    by rw [e7, List.length_set]; exact h7, by rw [e8, List.length_set]; exact h8,
    e9, by rw [e11]; exact h10⟩

theorem LoopPost.nil {R : Type} (h : Host R) (N n : Nat) (b : Body R)
    (hb : b.rows n (N - 8)) : LoopPost h N n [] n b b := by
  obtain ⟨h1, h2, h3, h4, h5, h6, h7, h8, h9, h10⟩ := hb
  refine ⟨loop_vector_nil _ _ h1, loop_vector_nil _ _ h2, loop_vector_nil _ _ h3,
    loop_vector_nil _ _ h4, loop_vector_nil _ _ h5, loop_vector_nil _ _ h6,
    loop_vector_nil _ _ h7, loop_vector_nil _ _ h8, h9, rfl, h10, ?_⟩
  intro r c hr _
  rw [if_neg (Nat.not_le.2 hr)]

theorem gt_cell_step (i r : Nat) (hlt : i + 1 ≤ r) : i ≤ r ∧ r - i = (r - (i + 1)) + 1 := by
  omega

theorem LoopPost.cons {R : Type} (h : Host R) (N n : Nat) (r0 : List Str)
    (rs : List (List Str)) (i : Nat) (b b1 b2 : Body R) (hi : i < n)
    (hb : b.rows n (N - 8)) (hrow : RowPost h N n r0 i b b1)
    (hloop : LoopPost h N n rs (i + 1) b1 b2) : LoopPost h N n (r0 :: rs) i b b2 := by
  obtain ⟨e1, e2, e3, e4, e5, e6, e7, e8, _, e10, _, e12⟩ := hrow
  obtain ⟨f1, f2, f3, f4, f5, f6, f7, f8, f9, f10, f11, f12⟩ := hloop
  obtain ⟨h1, h2, h3, h4, h5, h6, h7, h8, _, _⟩ := hb
  refine ⟨loop_vector_step _ _ _ i n _ _ h1 hi e1 f1,
    loop_vector_step _ _ _ i n _ _ h2 hi e2 f2, loop_vector_step _ _ _ i n _ _ h3 hi e3 f3,
    loop_vector_step _ _ _ i n _ _ h4 hi e4 f4, loop_vector_step _ _ _ i n _ _ h5 hi e5 f5,
    loop_vector_step _ _ _ i n _ _ h6 hi e6 f6, loop_vector_step _ _ _ i n _ _ h7 hi e7 f7,
    loop_vector_step _ _ _ i n _ _ h8 hi e8 f8, f9, f10.trans e10, f11, ?_⟩
  intro r c hr hc
  rw [f12 r c hr hc, e12 r c hr]
  by_cases hlt : i + 1 ≤ r
  · obtain ⟨hle, hsub⟩ := gt_cell_step i r hlt
    rw [if_pos hlt, if_pos hle, hsub, List.getD_cons_succ]
  · rw [if_neg hlt]
    by_cases heq : r = i
    · subst heq
      rw [if_pos ⟨rfl, hc⟩, if_pos (le_refl _)]
      simp
    · have hn1 : ¬ (r = i ∧ c < N - 8) := fun hh => heq hh.1
      have hn2 : ¬ i ≤ r := fun hle =>
        heq (Nat.le_antisymm (Nat.le_of_lt_succ (Nat.lt_of_not_le hlt)) hle)
      rw [if_neg hn1, if_neg hn2]

/-- The body loop of `vcf_body` on the lines of the records `rs`, from row `i`
on: the rows before `i` are kept and the rows from `i` on hold the records. -/
theorem vcf_body_loop_spec {R : Type} (h : Host R) (stats : Stats) (N n : Nat)
    (hcols : stats.columns = N) (hN : 8 ≤ N) :
    ∀ (rs : List (List Str)) (i : Nat) (b : Body R), (∀ r ∈ rs, Record h N r) →
      i + rs.length = n → b.rows n (N - 8) →
      ∃ b2, vcf_body_loop h stats (rs.map tab_join) i b = .ok b2
        ∧ LoopPost h N n rs i b b2 := by
  intro rs
  induction rs with
  | nil =>
    intro i b _ hi hb
    have hin : i = n := by simpa using hi
    subst hin
    exact ⟨b, rfl, LoopPost.nil h N i b hb⟩
  | cons r0 rs ih =>
    intro i b hall hi hb
    have hi2 : i < n := by simp at hi; omega
    have hi3 : i + 1 + rs.length = n := by simp at hi; omega
    obtain ⟨b1, e0, hrow⟩ :=
      vcf_body_row_spec h stats N n hcols hN b i r0 (hall r0 (by simp)) hi2 hb
    obtain ⟨b2, f0, hloop⟩ :=
      ih (i + 1) b1 (fun r hr => hall r (by simp [hr])) hi3 (hrow.rows hb)
    refine ⟨b2, ?_, LoopPost.cons h N n r0 rs i b b1 b2 hi2 hb hrow hloop⟩
    simp only [List.map_cons, vcf_body_loop, e0, bind, Except.bind]
    exact f0

theorem Body.init_rows {R : Type} (h : Host R) (n G : Nat) : (Body.init h n G).rows n G := by
  simp [Body.init, Body.rows, StringMatrix.create]

theorem fixed_header_fields : ∀ f ∈ fixed_header, f ≠ [] ∧ tab ∉ f := by decide

/-- On a file made of `stats.meta` lines, the standard header with the sample
names and the lines of the records, `vcf_body` returns the frame of the vectors
and the matrix filled by the body loop. -/
theorem vcf_body_eq {R : Type} (h : Host R) (stats : Stats) (N : Nat) (metas : List Str)
    (samples : List Str) (rows : List (List Str)) (hN : 8 ≤ N)
    (hmeta : stats.meta = metas.length) (hvar : stats.variants = rows.length)
    (hcols : stats.columns = N) (hsamples : samples.length = N - 8)
    (hnames : ∀ f ∈ samples, f ≠ [] ∧ tab ∉ f) (hrows : ∀ r ∈ rows, Record h N r) :
    ∃ b2, LoopPost h N rows.length rows 0 (Body.init h rows.length (N - 8)) b2
      ∧ vcf_body h (metas ++ tab_join (fixed_header ++ samples) :: rows.map tab_join) stats
        = .ok (b2.frame samples) := by
  obtain ⟨b2, hloop, hpost⟩ := vcf_body_loop_spec h stats N rows.length hcols hN rows 0
    (Body.init h rows.length (N - 8)) hrows (by simp) (Body.init_rows h _ _)
  refine ⟨b2, hpost, ?_⟩
  have hsplit : tabsplit (tab_join (fixed_header ++ samples)) N
      = .ok (fixed_header ++ samples) := by
    have hlen : (fixed_header ++ samples).length = N := by
      simp [fixed_header, hsamples]; omega
    have := tabsplit_tab_join (fixed_header ++ samples) (by simp [fixed_header])
      (fun f hf => by
        rcases List.mem_append.1 hf with hf | hf
        · exact fixed_header_fields f hf
        · exact hnames f hf)
    rw [hlen] at this
    exact this
  have hdrop : (metas ++ tab_join (fixed_header ++ samples) :: rows.map tab_join).drop
      stats.meta = tab_join (fixed_header ++ samples) :: rows.map tab_join := by
    rw [hmeta]; exact List.drop_left _ _
  unfold vcf_body
  simp only [hdrop, getline, hvar]
  rw [hcols, if_neg (by omega)]
  simp only [bind, Except.bind, pure, Except.pure, hloop, hsplit]
  rfl

theorem Body.frame_take {R : Type} (b : Body R) (samples : List Str) :
    (b.frame samples).take 8
      = [("CHROM".toList, .character b.chrom), ("POS".toList, .integer b.pos),
         ("ID".toList, .character b.id), ("REF".toList, .character b.ref),
         ("ALT".toList, .character b.alt), ("QUAL".toList, .numeric b.qual),
         ("FILTER".toList, .character b.filter), ("INFO".toList, .character b.info)] := rfl

theorem Body.frame_drop {R : Type} (b : Body R) (samples : List Str) :
    (b.frame samples).drop 8
      = List.zip samples ((List.range b.gt.ncol).map (fun j => .character (b.gt.column j))) :=
  rfl

theorem Body.frame_fix_columns {R : Type} (h : Host R) (b : Body R) (samples : List Str) :
    fix_columns h ((b.frame samples).take 8) = .ok (b.columns h) := by
  rw [Body.frame_take]
  rfl

theorem map_range_getD {α : Type} (l : List α) (d : α) :
    (List.range l.length).map (fun i => l.getD i d) = l := by
  apply List.ext_getElem
  · simp
  · intro i h1 h2
    simp [List.getD_eq_getElem?_getD, List.getElem?_eq_getElem h2]

theorem flatMap_range_getD {α β : Type} (l : List α) (d : α) (F : α → List β) :
    (List.range l.length).flatMap (fun i => F (l.getD i d)) = l.flatMap F := by
  conv_rhs => rw [← map_range_getD l d]
  rw [List.flatMap_map]

theorem getD_map {α β : Type} (l : List α) (f : α → β) (i : Nat) (d : α) (e : β)
    (hi : i < l.length) : (l.map f).getD i e = f (l.getD i d) := by
  simp [List.getD_eq_getElem?_getD, List.getElem?_eq_getElem hi]

theorem zip_range_getElem? {α β : Type} (samples : List α) (f : Nat → β) (G j : Nat)
    (hs : samples.length = G) (hj : j < G) :
    (List.zip samples ((List.range G).map f))[j]?
      = some (samples.get ⟨j, by rw [hs]; exact hj⟩, f j) := by
  rw [List.getElem?_eq_getElem (by simp [hs, hj])]
  simp

theorem zip_range_mem {α β : Type} (samples : List α) (f : Nat → β) (G : Nat)
    (c : α × β) (hc : c ∈ List.zip samples ((List.range G).map f)) :
    ∃ j, j < G ∧ c.2 = f j := by
  have h2 := (List.of_mem_zip hc).2
  rw [List.mem_map] at h2
  obtain ⟨j, hj, hjc⟩ := h2
  exact ⟨j, List.mem_range.1 hj, hjc.symm⟩

theorem column_getElem? (m : StringMatrix) (n i j : Nat) (hn : m.nrow = n)
    (hi : i < n) : (m.column j)[i]? = m.data[i + n * j]? := by
  unfold StringMatrix.column
  rw [hn, List.getElem?_take_of_lt hi, List.getElem?_drop, Nat.add_comm]

theorem column_length (m : StringMatrix) (n G j : Nat) (hn : m.nrow = n)
    (hlen : m.data.length = n * G) (hj : j < G) : (m.column j).length = n := by
  unfold StringMatrix.column
  have := Nat.mul_le_mul_left n (Nat.succ_le_of_lt hj)
  rw [Nat.mul_succ] at this
  rw [List.length_take, List.length_drop, hn, hlen]
  omega

theorem eight_fields {α : Type} (r : List α) (hr : 8 ≤ r.length) :
    ∃ a0 a1 a2 a3 a4 a5 a6 a7 rest, r = a0 :: a1 :: a2 :: a3 :: a4 :: a5 :: a6 :: a7 :: rest := by
  rcases r with _ | ⟨a0, _ | ⟨a1, _ | ⟨a2, _ | ⟨a3, _ | ⟨a4, _ | ⟨a5, _ | ⟨a6, _ | ⟨a7, rest⟩⟩⟩⟩⟩⟩⟩⟩
  all_goals first
    | exact ⟨a0, a1, a2, a3, a4, a5, a6, a7, rest, rfl⟩
    | (simp at hr; try omega)

theorem na_string_of_ne {t : Str} (ht : t ≠ dot) : na_string t = some t := by
  simp [na_string, ht]

theorem gt_text_fields (rest : List Str) :
    gt_text ((List.range rest.length).map (fun j => some (rest.getD j [])))
      = rest.flatMap (fun g => tab :: g) := by
  unfold gt_text
  rw [List.flatMap_map]
  exact flatMap_range_getD rest [] (fun g => tab :: g)

/-- The text that `write_vcf_body` appends for the cells parsed from a record is
the line of the record and a newline. -/
theorem record_text {R : Type} (h : Host R) (N : Nat) (r : List Str) (hr : Record h N r)
    (hN : 8 ≤ N) :
    Row.text
        { chrom := na_string (r.getD 0 []),
          pos := (pos_cell (r.getD 1 [])).map int_to_string,
          id := na_string (r.getD 2 []), ref := na_string (r.getD 3 []),
          alt := na_string (r.getD 4 []),
          qual := (qual_value h (r.getD 5 [])).map h.as_character,
          filter := na_string (r.getD 6 []), info := na_string (r.getD 7 []),
          gt := (List.range (N - 8)).map (fun j => some (r.getD (j + 8) [])) }
      = tab_join r ++ ['\n'] := by
  have hpos := (pos_value_of_record hr).2
  obtain ⟨hlen, _, hdot, _, hqual⟩ := hr
  obtain ⟨a0, a1, a2, a3, a4, a5, a6, a7, rest, rfl⟩ := eight_fields r (by rw [hlen]; exact hN)
  have hG : N - 8 = rest.length := by simp at hlen; omega
  have d0 : a0 ≠ dot := hdot a0 (by simp)
  have d2 : a2 ≠ dot := hdot a2 (by simp)
  have d3 : a3 ≠ dot := hdot a3 (by simp)
  have d4 : a4 ≠ dot := hdot a4 (by simp)
  have d5 : a5 ≠ dot := hdot a5 (by simp)
  have d6 : a6 ≠ dot := hdot a6 (by simp)
  have d7 : a7 ≠ dot := hdot a7 (by simp)
  simp only [List.getD_cons_zero, List.getD_cons_succ] at hpos hqual
  have hq : (qual_value h a5).map h.as_character = some a5 := by
    simp [qual_value, d5, hqual]
  have hgt : (List.range (N - 8)).map
      (fun j => some ((a0 :: a1 :: a2 :: a3 :: a4 :: a5 :: a6 :: a7 :: rest).getD (j + 8) []))
      = (List.range rest.length).map (fun j => some (rest.getD j [])) := by
    rw [hG]; rfl
  rw [hgt]
  simp only [List.getD_cons_zero, List.getD_cons_succ, Row.text, na_string_of_ne d0,
    na_string_of_ne d2, na_string_of_ne d3, na_string_of_ne d4, na_string_of_ne d6,
    na_string_of_ne d7, hpos, hq, gt_text_fields, na_dot, out_string]
  rw [tab_join_eq]
  simp

theorem frame_gt_length {R : Type} (b : Body R) (samples : List Str) (G : Nat)
    (hncol : b.gt.ncol = G) (hs : samples.length = G) :
    ((b.frame samples).drop 8).length = G := by
  rw [Body.frame_drop, hncol]
  simp [hs]

theorem frame_gt_rows {R : Type} (h : Host R) (b : Body R) (samples : List Str) (n G : Nat)
    (hn : b.gt.nrow = n) (hncol : b.gt.ncol = G) (hlen : b.gt.data.length = n * G) :
    DataFrame.rows h ((b.frame samples).drop 8) n := by
  rw [Body.frame_drop, hncol]
  intro c hc
  obtain ⟨j, hj, hcj⟩ := zip_range_mem samples _ G c hc
  rw [hcj]
  exact column_length b.gt n G j hn hlen hj

theorem frame_gt_cell {R : Type} (h : Host R) (b : Body R) (samples : List Str)
    (n G i j : Nat) (hn : b.gt.nrow = n) (hncol : b.gt.ncol = G) (hs : samples.length = G)
    (hi : i < n) (hj : j < G) :
    DataFrame.cell h ((b.frame samples).drop 8) i j = b.gt.data[i + n * j]? := by
  rw [Body.frame_drop, hncol]
  unfold DataFrame.cell
  rw [zip_range_getElem? samples _ G j hs hj]
  exact column_getElem? b.gt n i j hn hi

/-- The rows of the table returned by `vcf_body`, as the writers see them. -/
theorem frame_table_row {R : Type} (h : Host R) (N : Nat) (rows : List (List Str))
    (samples : List Str) (b0 b2 : Body R)
    (hpost : LoopPost h N rows.length rows 0 b0 b2) (hncol : b0.gt.ncol = N - 8)
    (hs : samples.length = N - 8) (i : Nat) (hi : i < rows.length) :
    table_row h (b2.columns h) ((b2.frame samples).drop 8) i
      = { chrom := na_string ((rows.getD i []).getD 0 []),
          pos := (pos_cell ((rows.getD i []).getD 1 [])).map int_to_string,
          id := na_string ((rows.getD i []).getD 2 []),
          ref := na_string ((rows.getD i []).getD 3 []),
          alt := na_string ((rows.getD i []).getD 4 []),
          qual := (qual_value h ((rows.getD i []).getD 5 [])).map h.as_character,
          filter := na_string ((rows.getD i []).getD 6 []),
          info := na_string ((rows.getD i []).getD 7 []),
          gt := (List.range (N - 8)).map (fun j => some ((rows.getD i []).getD (j + 8) [])) } := by
  obtain ⟨f1, f2, f3, f4, f5, f6, f7, f8, f9, f10, _, f12⟩ := hpost
  simp only [List.take_zero, List.nil_append] at f1 f2 f3 f4 f5 f6 f7 f8
  have hG := frame_gt_length b2 samples (N - 8) (f10.trans hncol) hs
  have hcell : ∀ j, j < N - 8 →
      (DataFrame.cell h ((b2.frame samples).drop 8) i j).getD none
        = some ((rows.getD i []).getD (j + 8) []) := by
    intro j hj
    rw [frame_gt_cell h b2 samples rows.length (N - 8) i j f9 (f10.trans hncol) hs hi hj,
      f12 i j hi hj, if_pos (Nat.zero_le _)]
    rfl
  unfold table_row Body.columns
  simp only []
  rw [hG, f1, f2, f3, f4, f5, f6, f7, f8, List.map_map, List.map_map]
  rw [getD_map rows _ i [] none hi, getD_map rows _ i [] none hi, getD_map rows _ i [] none hi,
    getD_map rows _ i [] none hi, getD_map rows _ i [] none hi, getD_map rows _ i [] none hi,
    getD_map rows _ i [] none hi, getD_map rows _ i [] none hi]
  congr 1
  apply List.map_congr_left
  intro j hj
  exact hcell j (List.mem_range.1 hj)

theorem frame_fix_rows {R : Type} (h : Host R) (N : Nat) (rows : List (List Str))
    (b0 b2 : Body R) (hpost : LoopPost h N rows.length rows 0 b0 b2) :
    FixColumns.rows (b2.columns h) rows.length := by
  obtain ⟨f1, f2, f3, f4, f5, f6, f7, f8, _, _, _, _⟩ := hpost
  simp only [List.take_zero, List.nil_append] at f1 f2 f3 f4 f5 f6 f7 f8
  unfold FixColumns.rows Body.columns
  simp only []
  rw [f1, f2, f3, f4, f5, f6, f7, f8]
  simp

/-- Writing with `mask = 0` the table that `vcf_body` filled from the records
`rows` gives the lines of the records, each followed by a newline. -/
theorem write_frame {R : Type} (h : Host R) (N : Nat) (rows : List (List Str))
    (samples : List Str) (b2 : Body R) (hN : 9 ≤ N)
    (hpost : LoopPost h N rows.length rows 0 (Body.init h rows.length (N - 8)) b2)
    (hs : samples.length = N - 8) (hrows : ∀ r ∈ rows, Record h N r) (file : Str) :
    write_vcf_body h ((b2.frame samples).take 8) ((b2.frame samples).drop 8) file 0
      = .ok (file ++ (rows.map tab_join).flatMap (fun line => line ++ ['\n'])) := by
  have hncol : (Body.init h rows.length (N - 8)).gt.ncol = N - 8 := rfl
  have hc := frame_fix_rows h N rows _ b2 hpost
  have hn : b2.gt.nrow = rows.length := hpost.2.2.2.2.2.2.2.2.1
  have hnc : b2.gt.ncol = N - 8 := hpost.2.2.2.2.2.2.2.2.2.1.trans hncol
  have hlen : b2.gt.data.length = rows.length * (N - 8) := hpost.2.2.2.2.2.2.2.2.2.2.1
  have hgt := frame_gt_rows h b2 samples rows.length (N - 8) hn hnc hlen
  have hG : (b2.frame samples).drop 8 ≠ [] := by
    intro hnil
    have := frame_gt_length b2 samples (N - 8) hnc hs
    rw [hnil] at this
    simp at this
    omega
  rw [write_vcf_body_eq h _ _ file 0 rows.length _ (Body.frame_fix_columns h b2 samples) hc
    hgt hG]
  have hfilter : (List.range rows.length).filter
      (fun i => !(decide ((0 : Int) = 1) && decide
        ((b2.columns h).filter.getD i none = some PASS))) = List.range rows.length := by
    simp
  rw [hfilter]
  have htext : ∀ i ∈ List.range rows.length,
      (table_row h (b2.columns h) ((b2.frame samples).drop 8) i).text
      = (fun r => tab_join r ++ ['\n']) (rows.getD i []) := by
    intro i hi
    have hi2 : i < rows.length := List.mem_range.1 hi
    have hmem : rows.getD i [] ∈ rows := by
      rw [List.getD_eq_getElem?_getD, List.getElem?_eq_getElem hi2]
      exact List.getElem_mem _
    rw [frame_table_row h N rows samples _ b2 hpost hncol hs i hi2]
    exact record_text h N _ (hrows _ hmem) (by omega)
  have hflat : (List.range rows.length).flatMap (fun i =>
      (table_row h (b2.columns h) ((b2.frame samples).drop 8) i).text)
      = (List.range rows.length).flatMap
          (fun i => (fun r => tab_join r ++ ['\n']) (rows.getD i [])) := by
    unfold List.flatMap
    rw [List.map_congr_left htext]
  rw [hflat, flatMap_range_getD rows [] (fun r => tab_join r ++ ['\n']), List.flatMap_map]

theorem vcf_stats_line_meta (s : Stats) (line : Str) (h : is_meta line = true) :
    vcf_stats_line s line = { s with meta := s.meta + 1 } := by
  have h2 : char_at line 0 = '#' ∧ char_at line 1 = '#' := by simpa [is_meta] using h
  simp [vcf_stats_line, h2]

theorem vcf_stats_line_header (s : Stats) (line : Str) (h : is_header line = true) :
    vcf_stats_line s line
      = { s with header := s.meta + 1, columns := s.columns + line.count tab + 1 } := by
  have h2 : char_at line 0 = '#' ∧ char_at line 1 ≠ '#' := by simpa [is_header] using h
  simp [vcf_stats_line, h2]

theorem vcf_stats_line_variant (s : Stats) (line : Str) (hm : is_meta line = false)
    (hh : is_header line = false) :
    vcf_stats_line s line = { s with variants := s.variants + 1 } := by
  have h0 : char_at line 0 ≠ '#' := by
    intro h0
    by_cases h1 : char_at line 1 = '#'
    · simp [is_meta, h0, h1] at hm
    · simp [is_header, h0, h1] at hh
  simp [vcf_stats_line, h0]

/-- The scan of `vcf_stats` over lines none of which is a header line: only
the counts of meta lines and of variants move. -/
theorem vcf_stats_fold_no_header (ls : List Str) :
    ∀ s : Stats, (∀ l ∈ ls, is_header l = false) →
      ls.foldl vcf_stats_line s
        = { s with meta := s.meta + ls.countP is_meta,
                   variants := s.variants + ls.countP (fun l => !is_meta l) } := by
  induction ls with
  | nil => intro s _; rfl
  | cons l ls ih =>
    intro s hall
    have hl : is_header l = false := hall l (by simp)
    have hls : ∀ l ∈ ls, is_header l = false := fun x hx => hall x (by simp [hx])
    rw [List.foldl_cons, ih _ hls]
    cases hm : is_meta l with
    | true =>
      rw [vcf_stats_line_meta s l hm]
      simp [List.countP_cons, hm]; omega
    | false =>
      rw [vcf_stats_line_variant s l hm hl]
      simp [List.countP_cons, hm]; omega

/-- The count of meta lines of `vcf_stats` is the number of meta lines. -/
theorem vcf_stats_fold_meta (ls : List Str) :
    ∀ s : Stats, (ls.foldl vcf_stats_line s).meta = s.meta + ls.countP is_meta := by
  induction ls with
  | nil => intro s; rfl
  | cons l ls ih =>
    intro s
    rw [List.foldl_cons, ih]
    cases hm : is_meta l with
    | true =>
      rw [vcf_stats_line_meta s l hm]
      simp [List.countP_cons, hm]; omega
    | false =>
      have h2 : ¬ (char_at l 0 = '#' ∧ char_at l 1 = '#') := by simpa [is_meta] using hm
      have : (vcf_stats_line s l).meta = s.meta := by
        unfold vcf_stats_line
        rw [if_neg h2]
        split <;> rfl
      rw [this]
      simp [List.countP_cons, hm]

/-- The counts of `vcf_stats` on a file with one header line. -/
theorem vcf_stats_one_header (pre post : List Str) (header : Str)
    (hh : is_header header = true) (hpre : ∀ l ∈ pre, is_header l = false)
    (hpost : ∀ l ∈ post, is_header l = false) :
    vcf_stats (pre ++ header :: post)
      = { meta := pre.countP is_meta + post.countP is_meta,
          header := pre.countP is_meta + 1,
          variants := pre.countP (fun l => !is_meta l) + post.countP (fun l => !is_meta l),
          columns := header.count tab + 1 } := by
  unfold vcf_stats
  rw [List.foldl_append, List.foldl_cons, vcf_stats_fold_no_header pre _ hpre,
    vcf_stats_line_header _ _ hh, vcf_stats_fold_no_header post _ hpost]
  simp

theorem countP_eq_length_of_all {α : Type} (p : α → Bool) (l : List α)
    (h : ∀ x ∈ l, p x = true) : l.countP p = l.length := by
  rw [List.countP_eq_length]; exact h

theorem countP_eq_zero_of_none {α : Type} (p : α → Bool) (l : List α)
    (h : ∀ x ∈ l, p x = false) : l.countP p = 0 := by
  rw [List.countP_eq_zero]; intro x hx; simp [h x hx]

/-- The loop of `vcf_meta`: `n` lines of the stream go to the indices from `i`
on. -/
theorem vcf_meta_loop_spec : ∀ (n i : Nat) (stream : List Str) (meta : List RString),
    i + n ≤ meta.length → n ≤ stream.length →
    vcf_meta_loop n i stream meta
      = .ok (meta.take i ++ (stream.take n).map some ++ meta.drop (i + n)) := by
  intro n
  induction n with
  | zero => intro i stream meta _ _; simp [vcf_meta_loop]
  | succ n ih =>
    intro i stream meta hi hs
    cases stream with
    | nil => simp at hs
    | cons l rest =>
      have hlt : i < meta.length := by omega
      have hat : at_ meta i = .ok (meta[i]) := checked_at_eq_ok (List.getElem?_eq_getElem hlt)
      simp only [vcf_meta_loop, getline, hat, bind, Except.bind]
      rw [ih (i + 1) rest _ (by simp; omega) (by simpa using hs)]
      congr 1
      rw [take_succ_set meta i (some l) hlt, List.drop_set_of_lt _ _ (by omega)]
      simp [show i + 1 + n = i + (n + 1) by omega]

theorem tab_join_eq_intercalate (fs : List Str) : tab_join fs = [tab].intercalate fs := by
  induction fs with
  | nil => rfl
  | cons f fs ih =>
    cases fs with
    | nil => simp [tab_join, List.intercalate]
    | cons g gs =>
      rw [tab_join, ih]
      simp [List.intercalate, List.intersperse]

/-- On a line that does not begin with a tab and has no two adjacent tabs, the
scan of `tabsplit` cuts out the tab-delimited fields of the line. -/
theorem scanned_fields_eq_splitOn (line : Str) (hhead : line.head? ≠ some tab)
    (hadj : no_adjacent_tabs line = true) :
    scanned_fields line = line.splitOn tab
      ∧ (scanned_fields line).length = line.count tab + 1 := by
  cases line with
  | nil => exact ⟨by decide, by decide⟩
  | cons c rest =>
    have hc : tab ≠ c := by
      intro h; apply hhead; simp [h]
    have hadj2 : no_adjacent_tabs rest = true := no_adjacent_tabs_tail c rest hadj
    obtain ⟨h1, h2, h3⟩ := fields_from_props rest.length [c] rest (le_refl _)
      (by simp [hc]) hadj2
    refine ⟨?_, ?_⟩
    · have hline : c :: rest = [tab].intercalate (fields_from [c] rest) := by
        rw [← tab_join_eq_intercalate]; simpa using h2.symm
      rw [hline, List.splitOn_intercalate _ tab h1 (fields_from_ne_nil _ _), ← hline]
      rfl
    · rw [List.count_cons_of_ne hc]
      simp only [scanned_fields, h3]

theorem tabsplit_ok_length {line : Str} {N : Nat} {temps : List Str}
    (h : tabsplit line N = .ok temps) : temps.length = N := by
  rw [tabsplit_eq] at h
  by_cases hle : (scanned_fields line).length ≤ N
  · rw [if_pos hle] at h
    injection h with h
    rw [← h, List.length_append, List.length_replicate]
    omega
  · rw [if_neg hle] at h
    cases h

theorem pos_cell_of_ok {t : Str} {v : Option Int} (h : pos_value t = .ok v) :
    pos_cell t = v := by
  unfold pos_cell
  rw [h]

theorem parse_line_ok {N : Nat} {line : Str} {temps : List Str}
    (h : parse_line N line = .ok temps) :
    tabsplit line N = .ok temps
      ∧ pos_value (temps.getD 1 []) = .ok (pos_cell (temps.getD 1 [])) := by
  unfold parse_line at h
  simp only [bind, Except.bind] at h
  cases hs : tabsplit line N with
  | error e => rw [hs] at h; cases h
  | ok t =>
    rw [hs] at h
    simp only [] at h
    cases hp : pos_value (t.getD 1 []) with
    | error e => rw [hp] at h; cases h
    | ok v =>
      rw [hp] at h
      simp only [] at h
      injection h with h
      subst h
      exact ⟨rfl, by rw [pos_cell_of_ok hp]; exact hp⟩

/-- One iteration of the body loop of `vcf_body` on a line for which `tabsplit`
returns `temps` and the conversion of `POS` is defined: row `i` of every vector
and of the matrix is written from `temps`. -/
theorem vcf_body_row_parsed {R : Type} (h : Host R) (stats : Stats) (N n : Nat)
    (hcols : stats.columns = N) (hN : 8 ≤ N) (b : Body R) (i : Nat) (line : Str)
    (r : List Str) (hr : parse_line N line = .ok r) (hi : i < n) (hb : b.rows n (N - 8)) :
    ∃ b1, vcf_body_row h stats b i line = .ok b1 ∧ RowPost h N n r i b b1 := by
  obtain ⟨h1, h2, h3, h4, h5, h6, h7, h8, h9, h10⟩ := hb
  obtain ⟨hsplit0, hp⟩ := parse_line_ok hr
  have hlen : r.length = N := tabsplit_ok_length hsplit0
  have hsplit : tabsplit line stats.columns = .ok r := by
    rw [hcols]; exact hsplit0
  obtain ⟨gt2, g1, g2, g3, g4, g5⟩ := gt_row_spec r i (N - 8) (N - 8) 0 b.gt
    (by omega) (by omega) (by omega) (by rw [h9]; exact h10)
  have g1b : gt_row r i (List.range' 8 (stats.columns - 8)) b.gt = .ok gt2 := by
    rw [hcols]; simpa using g1
  have r0 := read_u_getD ([] : Str) (show 0 < r.length by omega)
  have r1 := read_u_getD ([] : Str) (show 1 < r.length by omega)
  have r2 := read_u_getD ([] : Str) (show 2 < r.length by omega)
  have r3 := read_u_getD ([] : Str) (show 3 < r.length by omega)
  have r4 := read_u_getD ([] : Str) (show 4 < r.length by omega)
  have r5 := read_u_getD ([] : Str) (show 5 < r.length by omega)
  have r6 := read_u_getD ([] : Str) (show 6 < r.length by omega)
  have r7 := read_u_getD ([] : Str) (show 7 < r.length by omega)
  have w0 := write_u_eq_ok (na_string (r.getD 0 [])) (show i < b.chrom.length by rw [h1]; exact hi)
  have w1 := write_u_eq_ok (pos_cell (r.getD 1 [])) (show i < b.pos.length by rw [h2]; exact hi)
  have w2 := write_u_eq_ok (na_string (r.getD 2 [])) (show i < b.id.length by rw [h3]; exact hi)
  have w3 := write_u_eq_ok (na_string (r.getD 3 [])) (show i < b.ref.length by rw [h4]; exact hi)
  have w4 := write_u_eq_ok (na_string (r.getD 4 [])) (show i < b.alt.length by rw [h5]; exact hi)
  have w5 := write_u_eq_ok (qual_value h (r.getD 5 [])) (show i < b.qual.length by rw [h6]; exact hi)
  have w6 := write_u_eq_ok (na_string (r.getD 6 [])) (show i < b.filter.length by rw [h7]; exact hi)
  have w7 := write_u_eq_ok (na_string (r.getD 7 [])) (show i < b.info.length by rw [h8]; exact hi)
  refine ⟨{ chrom := b.chrom.set i (na_string (r.getD 0 [])),
            pos := b.pos.set i (pos_cell (r.getD 1 [])),
            id := b.id.set i (na_string (r.getD 2 [])),
            ref := b.ref.set i (na_string (r.getD 3 [])),
            alt := b.alt.set i (na_string (r.getD 4 [])),
            qual := b.qual.set i (qual_value h (r.getD 5 [])),
            filter := b.filter.set i (na_string (r.getD 6 [])),
            info := b.info.set i (na_string (r.getD 7 [])),
            gt := gt2 }, ?_, ?_⟩
  · unfold vcf_body_row
    simp only [bind, Except.bind]
    rw [hsplit]; simp only []
    rw [r0]; simp only []
    rw [w0]; simp only []
    rw [r1]; simp only []
    rw [hp]; simp only []
    rw [w1]; simp only []
    rw [r2]; simp only []
    rw [w2]; simp only []
    rw [r3]; simp only []
    rw [w3]; simp only []
    rw [r4]; simp only []
    rw [w4]; simp only []
    rw [r5]; simp only []
    rw [w5]; simp only []
    rw [r6]; simp only []
    rw [w6]; simp only []
    rw [r7]; simp only []
    rw [w7]; simp only []
    rw [g1b]
  · unfold RowPost
    refine ⟨rfl, rfl, rfl, rfl, rfl, rfl, rfl, rfl, g2.trans h9, g3, g4, ?_⟩
    intro r2 c hr2
    have := g5 r2 c (by rw [h9]; exact hr2)
    rw [h9] at this
    simp only []
    rw [this]
    simp

/-- One iteration of the body loop of `vcf_body` on a line for which `tabsplit`
or the conversion of `POS` is not defined: the iteration is not defined. -/
theorem vcf_body_row_error {R : Type} (h : Host R) (stats : Stats) (N n : Nat)
    (hcols : stats.columns = N) (hN : 8 ≤ N) (b : Body R) (i : Nat) (line : Str)
    (e : Fault) (hr : parse_line N line = .error e) (hi : i < n) (hb : b.rows n (N - 8)) :
    vcf_body_row h stats b i line = .error e := by
  unfold parse_line at hr
  simp only [bind, Except.bind] at hr
  unfold vcf_body_row
  simp only [bind, Except.bind]
  rw [hcols]
  cases hs : tabsplit line N with
  | error e2 =>
    rw [hs] at hr
    simp only [] at hr ⊢
    injection hr with hr
    rw [hr]
  | ok r =>
    rw [hs] at hr
    simp only [] at hr ⊢
    have hlen : r.length = N := tabsplit_ok_length hs
    have r0 := read_u_getD ([] : Str) (show 0 < r.length by omega)
    have r1 := read_u_getD ([] : Str) (show 1 < r.length by omega)
    have w0 := write_u_eq_ok (na_string (r.getD 0 []))
      (show i < b.chrom.length by rw [hb.1]; exact hi)
    rw [r0]; simp only []
    rw [w0]; simp only []
    rw [r1]; simp only []
    cases hp : pos_value (r.getD 1 []) with
    | error e2 =>
      rw [hp] at hr
      simp only [] at hr ⊢
      injection hr with hr
      rw [hr]
    | ok v =>
      rw [hp] at hr
      cases hr

theorem parse_lines_cons_ok {N : Nat} {line : Str} {lines : List Str} {rs : List (List Str)}
    (h : parse_lines N (line :: lines) = .ok rs) :
    ∃ r rest, rs = r :: rest ∧ parse_line N line = .ok r ∧ parse_lines N lines = .ok rest := by
  simp only [parse_lines, bind, Except.bind] at h
  cases h1 : parse_line N line with
  | error e => rw [h1] at h; cases h
  | ok r =>
    rw [h1] at h
    simp only [] at h
    cases h2 : parse_lines N lines with
    | error e => rw [h2] at h; cases h
    | ok rest =>
      rw [h2] at h
      simp only [] at h
      injection h with h
      exact ⟨r, rest, h.symm, rfl, rfl⟩

theorem parse_lines_cons_error {N : Nat} {line : Str} {lines : List Str} {e : Fault}
    (h : parse_lines N (line :: lines) = .error e) :
    parse_line N line = .error e
      ∨ ∃ r, parse_line N line = .ok r ∧ parse_lines N lines = .error e := by
  simp only [parse_lines, bind, Except.bind] at h
  cases h1 : parse_line N line with
  | error e2 =>
    rw [h1] at h
    simp only [] at h
    injection h with h
    left; rw [h]
  | ok r =>
    rw [h1] at h
    simp only [] at h
    cases h2 : parse_lines N lines with
    | error e2 =>
      rw [h2] at h
      simp only [] at h
      injection h with h
      right; exact ⟨r, rfl, by rw [h]⟩
    | ok rest =>
      rw [h2] at h
      cases h

/-- The elements taken from the lines: one list per line, in the order of the
lines, each the result of `tabsplit` on its line. -/
theorem parse_lines_ok {N : Nat} : ∀ {lines : List Str} {rs : List (List Str)},
    parse_lines N lines = .ok rs →
    rs.length = lines.length
      ∧ ∀ k, k < lines.length → tabsplit (lines.getD k []) N = .ok (rs.getD k [])
          ∧ (rs.getD k []).length = N := by
  intro lines
  induction lines with
  | nil =>
    intro rs h
    simp only [parse_lines] at h
    injection h with h
    subst h
    exact ⟨rfl, fun k hk => by simp at hk⟩
  | cons line lines ih =>
    intro rs h
    obtain ⟨r, rest, hrs, h1, h2⟩ := parse_lines_cons_ok h
    obtain ⟨i1, i2⟩ := ih h2
    subst hrs
    refine ⟨by simp [i1], ?_⟩
    intro k hk
    cases k with
    | zero =>
      have := (parse_line_ok h1).1
      exact ⟨by simpa using this, by simpa using tabsplit_ok_length this⟩
    | succ k =>
      have := i2 k (by simpa using hk)
      simpa using this

/-- The body loop of `vcf_body` on lines from which the elements `rs` are
taken, from row `i` on: the rows before `i` are kept and the rows from `i` on
hold the elements. -/
theorem vcf_body_loop_parsed {R : Type} (h : Host R) (stats : Stats) (N n : Nat)
    (hcols : stats.columns = N) (hN : 8 ≤ N) :
    ∀ (lines : List Str) (rs : List (List Str)) (i : Nat) (b : Body R),
      parse_lines N lines = .ok rs → i + lines.length = n → b.rows n (N - 8) →
      ∃ b2, vcf_body_loop h stats lines i b = .ok b2 ∧ LoopPost h N n rs i b b2 := by
  intro lines
  induction lines with
  | nil =>
    intro rs i b hp hi hb
    simp only [parse_lines] at hp
    injection hp with hp
    subst hp
    have hin : i = n := by simpa using hi
    subst hin
    exact ⟨b, rfl, LoopPost.nil h N i b hb⟩
  | cons line lines ih =>
    intro rs i b hp hi hb
    obtain ⟨r0, rest, hrs, p1, p2⟩ := parse_lines_cons_ok hp
    subst hrs
    have hi2 : i < n := by simp at hi; omega
    have hi3 : i + 1 + lines.length = n := by simp at hi; omega
    obtain ⟨b1, e0, hrow⟩ := vcf_body_row_parsed h stats N n hcols hN b i line r0 p1 hi2 hb
    obtain ⟨b2, f0, hloop⟩ := ih rest (i + 1) b1 p2 hi3 (hrow.rows hb)
    refine ⟨b2, ?_, LoopPost.cons h N n r0 rest i b b1 b2 hi2 hb hrow hloop⟩
    simp only [vcf_body_loop, e0, bind, Except.bind]
    exact f0

/-- The body loop of `vcf_body` on lines one of which `tabsplit` or the
conversion of `POS` is not defined on: the loop is not defined. -/
theorem vcf_body_loop_error {R : Type} (h : Host R) (stats : Stats) (N n : Nat)
    (hcols : stats.columns = N) (hN : 8 ≤ N) :
    ∀ (lines : List Str) (e : Fault) (i : Nat) (b : Body R),
      parse_lines N lines = .error e → i + lines.length = n → b.rows n (N - 8) →
      vcf_body_loop h stats lines i b = .error e := by
  intro lines
  induction lines with
  | nil =>
    intro e i b hp _ _
    simp only [parse_lines] at hp
    cases hp
  | cons line lines ih =>
    intro e i b hp hi hb
    have hi2 : i < n := by simp at hi; omega
    have hi3 : i + 1 + lines.length = n := by simp at hi; omega
    rcases parse_lines_cons_error hp with p1 | ⟨r0, p1, p2⟩
    · simp only [vcf_body_loop, vcf_body_row_error h stats N n hcols hN b i line e p1 hi2 hb,
        bind, Except.bind]
    · obtain ⟨b1, e0, hrow⟩ := vcf_body_row_parsed h stats N n hcols hN b i line r0 p1 hi2 hb
      simp only [vcf_body_loop, e0, bind, Except.bind]
      exact ih e (i + 1) b1 p2 hi3 (hrow.rows hb)

theorem fields_from_length_le :
    ∀ (n : Nat) (cur rest : Str), rest.length ≤ n →
      (fields_from cur rest).length ≤ rest.count tab + 1 := by
  intro n
  induction n using Nat.strong_induction_on with
  | _ n ih =>
    intro cur rest hn
    match rest, hn with
    | [], _ => simp [fields_from]
    | [c], _ =>
      by_cases hc : c = tab
      · subst hc; simp [fields_from]
      · simp [fields_from, hc]
    | c :: d :: rest, hn =>
      by_cases hc : c = tab
      · subst hc
        rw [fields_from_tab_cons, List.length_cons, List.count_cons_self]
        have := ih rest.length (by simp at hn; omega) [d] rest (le_refl _)
        have h2 : rest.count tab ≤ (d :: rest).count tab := by
          rw [List.count_cons]; omega
        omega
      · rw [fields_from_cons_ne cur c (d :: rest) hc,
          List.count_cons_of_ne (fun e => hc e.symm)]
        exact ih (d :: rest).length (by simp at hn ⊢; omega) (cur ++ [c]) (d :: rest)
          (le_refl _)

/-- The scan of `tabsplit` cuts at most one field more than the line has
tabs. -/
theorem scanned_fields_length_le (line : Str) :
    (scanned_fields line).length ≤ line.count tab + 1 := by
  cases line with
  | nil => simp [scanned_fields]
  | cons c rest =>
    have := fields_from_length_le rest.length [c] rest (le_refl _)
    have h2 : rest.count tab ≤ (c :: rest).count tab := by
      rw [List.count_cons]; omega
    simp only [scanned_fields]
    omega

/-- The counts of `vcf_stats` on a file of meta lines, one header line and
lines that begin with no `#`, in this order. -/
theorem vcf_stats_layout (metas body : List Str) (header : Str)
    (hm : ∀ l ∈ metas, is_meta l = true) (hh : is_header header = true)
    (hb : ∀ l ∈ body, is_meta l = false ∧ is_header l = false) :
    vcf_stats (metas ++ header :: body)
      = { meta := metas.length, header := metas.length + 1, variants := body.length,
          columns := header.count tab + 1 } := by
  have hmh : ∀ l ∈ metas, is_header l = false := by
    intro l hl
    have := hm l hl
    simp only [is_meta, is_header, decide_eq_true_eq, decide_eq_false_iff_not] at this ⊢
    intro hc; exact hc.2 this.2
  rw [vcf_stats_one_header metas body header hh hmh (fun l hl => (hb l hl).2)]
  rw [countP_eq_length_of_all is_meta metas hm,
    countP_eq_zero_of_none is_meta body (fun l hl => (hb l hl).1),
    countP_eq_zero_of_none (fun l => !is_meta l) metas (fun l hl => by simp [hm l hl]),
    countP_eq_length_of_all (fun l => !is_meta l) body (fun l hl => by simp [(hb l hl).1])]
  simp

theorem loop_column {R : Type} (h : Host R) (N : Nat) (rs : List (List Str)) (b b2 : Body R)
    (hp : LoopPost h N rs.length rs 0 b b2) (j : Nat) (hj : j < N - 8) :
    b2.gt.column j = rs.map (fun r => some (r.getD (j + 8) [])) := by
  obtain ⟨_, _, _, _, _, _, _, _, f9, _, f11, f12⟩ := hp
  apply List.ext_getElem?
  intro i
  by_cases hi : i < rs.length
  · rw [column_getElem? b2.gt rs.length i j f9 hi, f12 i j hi hj, if_pos (Nat.zero_le _)]
    simp [List.getD_eq_getElem?_getD, List.getElem?_eq_getElem hi]
  · have hlen := column_length b2.gt rs.length (N - 8) j f9 f11 hj
    rw [List.getElem?_eq_none (by rw [hlen]; omega), List.getElem?_eq_none (by simp; omega)]

/-- The columns that `vcf_body` returns after its body loop has run over lines
from which the elements `rs` were taken. -/
theorem loop_columns {R : Type} (h : Host R) (N : Nat) (rs : List (List Str)) (b b2 : Body R)
    (hncol : b.gt.ncol = N - 8) (hp : LoopPost h N rs.length rs 0 b b2)
    (names : List Str) :
    List.zip names
        ([.character b2.chrom, .integer b2.pos, .character b2.id, .character b2.ref,
          .character b2.alt, .numeric b2.qual, .character b2.filter, .character b2.info]
        ++ (List.range b2.gt.ncol).map (fun j => Column.character (b2.gt.column j)))
      = table_of h N names rs := by
  have hcol := loop_column h N rs b b2 hp
  obtain ⟨f1, f2, f3, f4, f5, f6, f7, f8, _, f10, _, _⟩ := hp
  have hmap : (List.range b2.gt.ncol).map (fun j => Column.character (R := R) (b2.gt.column j))
      = (List.range (N - 8)).map
          (fun j => Column.character (rs.map (fun r => some (r.getD (j + 8) [])))) := by
    rw [f10, hncol]
    apply List.map_congr_left
    intro j hj
    rw [hcol j (List.mem_range.1 hj)]
  rw [hmap, f1, f2, f3, f4, f5, f6, f7, f8]
  simp only [List.take_zero, List.nil_append]
  rfl

/-- The function `vcf_body` on a file of `stats.meta` lines, a header line and
`stats.variants` further lines, for at least eight columns: the table of the
elements taken from the lines after the header, under the names taken from the
header; it is not defined exactly when `tabsplit` or the conversion of `POS`
is not defined on one of the lines. -/
theorem vcf_body_general {R : Type} (h : Host R) (stats : Stats) (N : Nat)
    (metas body : List Str) (header : Str) (hcols : stats.columns = N) (hN : 8 ≤ N)
    (hmeta : stats.meta = metas.length) (hvar : stats.variants = body.length) :
    vcf_body h (metas ++ header :: body) stats
      = (parse_lines N body).bind (fun rs =>
          (header_names header N).bind (fun names => .ok (table_of h N names rs))) := by
  have hdrop : (metas ++ header :: body).drop stats.meta = header :: body := by
    rw [hmeta]; exact List.drop_left _ _
  unfold vcf_body
  simp only [hdrop, getline, hvar]
  rw [hcols, if_neg (by omega)]
  cases hp : parse_lines N body with
  | error e =>
    have hloop := vcf_body_loop_error h stats N body.length hcols hN body e 0
      (Body.init h body.length (N - 8)) hp (by simp) (Body.init_rows h _ _)
    simp only [bind, Except.bind, pure, Except.pure, hloop]
  | ok rs =>
    obtain ⟨b2, hloop, hpost⟩ := vcf_body_loop_parsed h stats N body.length hcols hN body rs 0
      (Body.init h body.length (N - 8)) hp (by simp) (Body.init_rows h _ _)
    have hlen : rs.length = body.length := (parse_lines_ok hp).1
    rw [← hlen] at hpost
    simp only [bind, Except.bind, pure, Except.pure, hloop, header_names]
    cases hs : tabsplit header N with
    | error e => rfl
    | ok temps =>
      have ht : temps.length = N := tabsplit_ok_length hs
      have r0 := read_u_getD ([] : Str) (show 0 < temps.length by omega)
      simp only [r0]
      rw [loop_columns h N rs _ b2 rfl hpost]

theorem tabsplit_eq_split_row (line : Str) (N : Nat) (h : (scanned_fields line).length ≤ N) :
    tabsplit line N = .ok (split_row N line) := by
  rw [tabsplit_eq, if_pos h]
  rfl

theorem split_row_length (line : Str) (N : Nat) (h : (scanned_fields line).length ≤ N) :
    (split_row N line).length = N := by
  unfold split_row
  rw [List.length_append, List.length_replicate]
  omega

/-- The elements past the fields that the scan cuts out are empty strings. -/
theorem split_row_missing (line : Str) (N k : Nat) (hk : (scanned_fields line).length ≤ k) :
    (split_row N line).getD k [] = [] := by
  unfold split_row
  rw [List.getD_eq_getElem?_getD, List.getElem?_append_right hk]
  by_cases hlt : k - (scanned_fields line).length < N - (scanned_fields line).length
  · rw [List.getElem?_replicate_of_lt hlt]
    rfl
  · rw [List.getElem?_eq_none (by simp; omega)]
    rfl

theorem pos_value_in_range (t : Str) (h1 : INT_MIN ≤ atoi t) (h2 : atoi t ≤ INT_MAX) :
    pos_value t = .ok (pos_cell t) := by
  unfold pos_cell
  have hn : ¬ (atoi t < INT_MIN ∨ INT_MAX < atoi t) := by omega
  unfold pos_value
  by_cases hd : t = dot
  · simp [hd]
  · rw [if_neg hd, if_neg hn]
    by_cases hm : atoi t = INT_MIN
    · simp [hm]
    · simp [hm]

/-- The value stored for a `POS` text other than `"."`: the result of `atoi`. -/
theorem pos_cell_eq_atoi (t : Str) (hd : t ≠ dot) (h1 : INT_MIN < atoi t)
    (h2 : atoi t ≤ INT_MAX) : pos_cell t = some (atoi t) := by
  unfold pos_cell pos_value
  rw [if_neg hd, if_neg (by omega), if_neg (by omega)]

/-- The function `atoi` on a text that begins with neither white space, a sign
nor a digit: `0`. -/
theorem atoi_no_number (c : Char) (cs : Str) (hdigit : c.isDigit = false)
    (hspace : isspace c = false) (hminus : c ≠ '-') (hplus : c ≠ '+') :
    atoi (c :: cs) = 0 := by
  unfold atoi
  rw [List.dropWhile_cons_of_neg (by simp [hspace])]
  split
  · rename_i heq; injection heq with h1 _; exact absurd h1 hminus
  · rename_i heq; injection heq with h1 _; exact absurd h1 hplus
  · simp [digits_value, hdigit]

theorem parse_line_eq_ok (N : Nat) (line : Str) (hlen : (scanned_fields line).length ≤ N)
    (h1 : INT_MIN ≤ atoi ((split_row N line).getD 1 []))
    (h2 : atoi ((split_row N line).getD 1 []) ≤ INT_MAX) :
    parse_line N line = .ok (split_row N line) := by
  unfold parse_line
  simp only [bind, Except.bind, tabsplit_eq_split_row line N hlen,
    pos_value_in_range _ h1 h2]

/-- The elements taken from lines out of each of which the scan cuts at most
`N` fields and whose `POS` conversion fits an `int`. -/
theorem parse_lines_eq_ok (N : Nat) : ∀ (lines : List Str),
    (∀ line ∈ lines, (scanned_fields line).length ≤ N
      ∧ INT_MIN ≤ atoi ((split_row N line).getD 1 [])
      ∧ atoi ((split_row N line).getD 1 []) ≤ INT_MAX) →
    parse_lines N lines = .ok (lines.map (split_row N)) := by
  intro lines
  induction lines with
  | nil => intro _; rfl
  | cons line lines ih =>
    intro hall
    obtain ⟨a, b, c⟩ := hall line (by simp)
    simp only [parse_lines, parse_line_eq_ok N line a b c,
      ih (fun l hl => hall l (by simp [hl])), bind, Except.bind, List.map_cons]

/-- The names that `vcf_body` takes from a header line for the column count
that `vcf_stats` takes from it: `tabsplit` on the header is always defined. -/
theorem header_names_ok (header : Str) :
    header_names header (header.count tab + 1)
        = .ok ((split_row (header.count tab + 1) header).set 0
            (((split_row (header.count tab + 1) header).getD 0 []).drop 1))
      ∧ ((split_row (header.count tab + 1) header).set 0
            (((split_row (header.count tab + 1) header).getD 0 []).drop 1)).length
          = header.count tab + 1 := by
  have hle := scanned_fields_length_le header
  refine ⟨?_, by rw [List.length_set]; exact split_row_length _ _ hle⟩
  unfold header_names
  simp only [bind, Except.bind, tabsplit_eq_split_row header _ hle]

theorem table_of_length {R : Type} (h : Host R) (N : Nat) (names : List Str)
    (rs : List (List Str)) (hN : 8 ≤ N) (hnames : names.length = N) :
    (table_of h N names rs).length = N ∧ ((table_of h N names rs).drop 8).length = N - 8 := by
  have : (table_of h N names rs).length = N := by
    unfold table_of
    simp only [List.length_zip, List.length_append, List.length_cons, List.length_nil,
      List.length_map, List.length_range, hnames]
    omega
  exact ⟨this, by rw [List.length_drop, this]⟩

/-- The function `vcf_body` on a file of meta lines, a header line of at least
eight columns and further lines, with the counts of `vcf_stats`, when the scan
cuts at most as many fields as there are columns out of each further line and
the `POS` conversions fit an `int`: the table of the elements of the lines. -/
theorem vcf_body_layout_ok {R : Type} (h : Host R) (metas body : List Str) (header : Str)
    (hm : ∀ l ∈ metas, is_meta l = true) (hh : is_header header = true)
    (hb : ∀ l ∈ body, is_meta l = false ∧ is_header l = false)
    (hN : 8 ≤ header.count tab + 1)
    (hrows : ∀ line ∈ body, (scanned_fields line).length ≤ header.count tab + 1
      ∧ INT_MIN ≤ atoi ((split_row (header.count tab + 1) line).getD 1 [])
      ∧ atoi ((split_row (header.count tab + 1) line).getD 1 []) ≤ INT_MAX) :
    vcf_body h (metas ++ header :: body) (vcf_stats (metas ++ header :: body))
      = .ok (table_of h (header.count tab + 1)
          ((split_row (header.count tab + 1) header).set 0
            (((split_row (header.count tab + 1) header).getD 0 []).drop 1))
          (body.map (split_row (header.count tab + 1)))) := by
  have hs := vcf_stats_layout metas body header hm hh hb
  rw [vcf_body_general h _ (header.count tab + 1) metas body header (by rw [hs]) hN
    (by rw [hs]) (by rw [hs]), parse_lines_eq_ok _ body hrows, (header_names_ok header).1]
  rfl

/-- The column `df(1)` of the table. -/
theorem table_of_pos {R : Type} (h : Host R) (N : Nat) (names : List Str)
    (rs : List (List Str)) (hnames : 2 ≤ names.length) :
    (table_of h N names rs).at 1 = .ok (.integer (rs.map (fun r => pos_cell (r.getD 1 [])))) := by
  match names, hnames with
  | n0 :: n1 :: rest, _ => simp [table_of, DataFrame.at]

theorem getD_append_replicate (l : List Str) (k i : Nat) :
    (l ++ List.replicate k ([] : Str)).getD i [] = l.getD i [] := by
  rw [List.getD_eq_getElem?_getD, List.getD_eq_getElem?_getD]
  by_cases hi : i < l.length
  · rw [List.getElem?_append_left hi]
  · rw [List.getElem?_append_right (by omega), List.getElem?_eq_none (l := l) (by omega)]
    by_cases hk : i - l.length < k
    · rw [List.getElem?_replicate_of_lt hk]
      rfl
    · rw [List.getElem?_eq_none (by simp; omega)]

/-- On a line that does not begin with a tab and has no two adjacent tabs, the
elements that `tabsplit` returns are the tab-separated fields of the line, then
empty strings. -/
theorem split_row_eq_splitOn (N : Nat) (line : Str) (hhead : line.head? ≠ some tab)
    (hadj : no_adjacent_tabs line = true) :
    split_row N line
        = line.splitOn tab ++ List.replicate (N - (line.splitOn tab).length) []
      ∧ (line.splitOn tab).length = line.count tab + 1
      ∧ ∀ k, (split_row N line).getD k [] = (line.splitOn tab).getD k [] := by
  obtain ⟨h1, h2⟩ := scanned_fields_eq_splitOn line hhead hadj
  have hrow : split_row N line
      = line.splitOn tab ++ List.replicate (N - (line.splitOn tab).length) [] := by
    unfold split_row
    rw [h1]
  refine ⟨hrow, by rw [← h1]; exact h2, ?_⟩
  intro k
  rw [hrow, getD_append_replicate]

/-- The value stored in `POS` for a text whose `atoi` fits an `int`: missing
for `"."` and for the `int` that is `NA_INTEGER`, otherwise the result of
`atoi`. -/
theorem pos_cell_in_range (t : Str) (h1 : INT_MIN ≤ atoi t) (h2 : atoi t ≤ INT_MAX) :
    pos_cell t = if t = dot ∨ atoi t = INT_MIN then none else some (atoi t) := by
  unfold pos_cell pos_value
  by_cases hd : t = dot
  · simp [hd]
  · rw [if_neg hd, if_neg (by omega)]
    by_cases hm : atoi t = INT_MIN
    · simp [hm, hd]
    · simp [hm, hd]

theorem zip_getElem? {α β : Type} (l : List α) (m : List β) (i : Nat) (hl : i < l.length)
    (hm : i < m.length) : (List.zip l m)[i]? = some (l[i], m[i]) := by
  rw [List.getElem?_eq_getElem (by simp; omega)]
  simp

/-- The genotype column `df(j + 8)` of the table. -/
theorem table_of_gt {R : Type} (h : Host R) (N : Nat) (names : List Str)
    (rs : List (List Str)) (hnames : names.length = N) (j : Nat) (hj : j < N - 8) :
    (table_of h N names rs).at (j + 8)
      = .ok (.character (rs.map (fun r => some (r.getD (j + 8) [])))) := by
  unfold DataFrame.at table_of
  rw [zip_getElem? _ _ (j + 8) (by omega) (by simp; omega)]
  simp only []
  congr 1
  rw [List.getElem_append_right (by simp)]
  simp

/-- The elements taken from well-formed record lines. -/
theorem parse_rows_well_formed (N : Nat) (body : List Str)
    (hrows : ∀ line ∈ body, line.head? ≠ some tab ∧ no_adjacent_tabs line = true
      ∧ line.count tab + 1 ≤ N
      ∧ INT_MIN ≤ atoi ((line.splitOn tab).getD 1 [])
      ∧ atoi ((line.splitOn tab).getD 1 []) ≤ INT_MAX) :
    ∀ line ∈ body, (scanned_fields line).length ≤ N
      ∧ INT_MIN ≤ atoi ((split_row N line).getD 1 [])
      ∧ atoi ((split_row N line).getD 1 []) ≤ INT_MAX := by
  intro line hl
  obtain ⟨a, b, c, d, e⟩ := hrows line hl
  have hk := (split_row_eq_splitOn N line a b).2.2 1
  rw [hk]
  exact ⟨le_trans (scanned_fields_length_le line) c, d, e⟩

end ReadVcf

namespace RankVariants

/-- C7 (rank law), evaluated on the code: on the scenario
`ends = [100,200,300]`, `pos = [10,50,150,250,280]`, `score = [5,9,1,7,3]`, no
exclusions, `rank_variants` returns a table whose columns are exactly `POS`,
`mask` and `window_number`; it has no `window_rank` column, so no rank
`[2,1,1,1,2]` is returned. -/
theorem rank_variants_returns_no_window_rank :
    ∃ df, rank_variants
        (variants_of [10, 50, 150, 250, 280] [false, false, false, false, false])
        ([100, 200, 300].map some) ([5, 9, 1, 7, 3].map some) = .ok df
      ∧ df.map Prod.fst = ["POS", "mask", "window_number"]
      ∧ df.col "window_rank" = .error .index_out_of_bounds :=
  ⟨with_window_number
      (variants_of [10, 50, 150, 250, 280] [false, false, false, false, false])
      [0, 0, 1, 2, 2],
    by decide, by decide, by decide⟩

end RankVariants

namespace ReadVcf

/-- C2 (round trip of parser and serializer). Take a file made of any
`stats.meta` lines, the header line with the eight fixed names and the sample
names, and the lines of records that each have exactly `N = stats.columns ≥ 9`
non-empty tab-separated fields, none of the eight fixed fields being `"."`, and
whose `POS` and `QUAL` texts are reproduced by parsing and printing the number
(`Record`). Then `vcf_body` returns a table, and `write_vcf_body` with
`mask = 0`, given its first eight columns and its remaining columns, turns an
empty file into exactly the record lines, in order, each followed by one
newline. -/
theorem round_trip {R : Type} (h : Host R) (stats : Stats) (N : Nat) (metas : List Str)
    (samples : List Str) (rows : List (List Str)) (hN : 9 ≤ N)
    (hmeta : stats.meta = metas.length) (hvar : stats.variants = rows.length)
    (hcols : stats.columns = N) (hsamples : samples.length = N - 8)
    (hnames : ∀ f ∈ samples, f ≠ [] ∧ tab ∉ f) (hrows : ∀ r ∈ rows, Record h N r) :
    ∃ df, vcf_body h (metas ++ tab_join (fixed_header ++ samples) :: rows.map tab_join) stats
        = .ok df
      ∧ write_vcf_body h (df.take 8) (df.drop 8) [] 0
        = .ok ((rows.map tab_join).flatMap (fun line => line ++ ['\n'])) := by
  obtain ⟨b2, hpost, hbody⟩ := vcf_body_eq h stats N metas samples rows (by omega) hmeta hvar
    hcols hsamples hnames hrows
  refine ⟨b2.frame samples, hbody, ?_⟩
  have := write_frame h N rows samples b2 hN hpost hsamples hrows []
  simpa using this

/-- Witness for C2: a file of one meta line, the header and the two records of
`example_rows`; its statistics are those that `vcf_stats` counts, and the text
written back is the two record lines. -/
theorem round_trip_witness :
    vcf_stats (["##fileformat=VCFv4.1".toList]
        ++ tab_join (fixed_header ++ example_samples) :: example_rows.map tab_join)
      = ⟨1, 2, 2, 10⟩
    ∧ (example_rows.map tab_join).flatMap (fun line => line ++ ['\n'])
      = ("chr1\t10\trs1\tA\tT\t30\tPASS\tDP=1\tGT\t0/1\n".toList
          ++ "chr1\t20\trs2\tG\tC\t45\tq10\tDP=2\tGT\t1/1\n".toList)
    ∧ ∃ df, vcf_body int_host (["##fileformat=VCFv4.1".toList]
          ++ tab_join (fixed_header ++ example_samples) :: example_rows.map tab_join)
          ⟨1, 2, 2, 10⟩ = .ok df
      ∧ write_vcf_body int_host (df.take 8) (df.drop 8) [] 0
        = .ok ((example_rows.map tab_join).flatMap (fun line => line ++ ['\n'])) :=
  ⟨by decide, by decide,
    round_trip int_host ⟨1, 2, 2, 10⟩ 10 ["##fileformat=VCFv4.1".toList] example_samples
      example_rows (by decide) (by decide) (by decide) (by decide) (by decide) (by decide)
      (by decide)⟩

/-- C4, as stated, fails: the line `"\ta"` has exactly `2 - 1` tab, yet
`tabsplit` with `N = 2` returns the fields `"\ta"` and `""`: the first holds a
tab, and their tab-join `"\ta\t"` is not the line. The scan starts at index 1,
so a tab at index 0 is never seen. -/
theorem tabsplit_contract_counterexample :
    ['\t', 'a'].count tab = 2 - 1
      ∧ tabsplit ['\t', 'a'] 2 = .ok [['\t', 'a'], []]
      ∧ tab ∈ ['\t', 'a']
      ∧ tab_join [['\t', 'a'], []] ≠ ['\t', 'a'] := by
  decide

/-- C4, amended (contract of `tabsplit`). For every `N ≥ 1` and every line with
exactly `N - 1` tabs that does not begin with a tab and has no two adjacent
tabs, `tabsplit(line, N)` returns exactly `N` fields, none of which contains a
tab, and joining them with tabs gives back the line. -/
theorem tabsplit_contract (line : Str) (N : Nat) (hN : 1 ≤ N)
    (hcount : line.count tab = N - 1) (hhead : line.head? ≠ some tab)
    (hadj : no_adjacent_tabs line = true) :
    ∃ fields, tabsplit line N = .ok fields ∧ fields.length = N
      ∧ (∀ f ∈ fields, tab ∉ f) ∧ tab_join fields = line := by
  cases line with
  | nil =>
    have hN1 : N = 1 := by simp at hcount; omega
    subst hN1
    exact ⟨[[]], by decide, rfl, by simp, rfl⟩
  | cons c rest =>
    have hc : tab ≠ c := by
      intro h; apply hhead; simp [h]
    have hadj2 : no_adjacent_tabs rest = true := no_adjacent_tabs_tail c rest hadj
    obtain ⟨h1, h2, h3⟩ := fields_from_props rest.length [c] rest (le_refl _)
      (by simp [hc]) hadj2
    have hlen : (scanned_fields (c :: rest)).length = N := by
      rw [List.count_cons_of_ne hc] at hcount
      simp only [scanned_fields, h3]; omega
    refine ⟨fields_from [c] rest, ?_, hlen, h1, by simpa using h2⟩
    rw [tabsplit_eq, hlen]
    simp [scanned_fields]

/-- Witness for C4 amended: the line `"a\tbc\t"` with `N = 3`. -/
theorem tabsplit_contract_witness :
    ∃ fields, tabsplit ['a', '\t', 'b', 'c', '\t'] 3 = .ok fields ∧ fields.length = 3
      ∧ (∀ f ∈ fields, tab ∉ f) ∧ tab_join fields = ['a', '\t', 'b', 'c', '\t'] :=
  tabsplit_contract ['a', '\t', 'b', 'c', '\t'] 3 (by decide) (by decide) (by decide)
    (by decide)

/-- C5 (count law of `vcf_stats`). For every file, given as the sequence of its
lines (blank lines included), that contains exactly one header line (first
character `#`, second character not `#`), the counts returned by `vcf_stats`
satisfy `meta + 1 + variants =` the number of lines of the file. -/
theorem vcf_stats_count_law (file : List Str) (hheader : file.countP is_header = 1) :
    (vcf_stats file).meta + 1 + (vcf_stats file).variants = file.length := by
  have h := vcf_stats_fold_count file ⟨0, 0, 0, 0⟩
  unfold vcf_stats
  simp only [hheader] at h
  omega

/-- Witness for C5: a file with one meta line, the header, a blank line and a
record. -/
theorem vcf_stats_count_law_witness :
    (vcf_stats ["##m".toList, "#CHROM\tPOS".toList, [], "a\tb".toList]).meta + 1
        + (vcf_stats ["##m".toList, "#CHROM\tPOS".toList, [], "a\tb".toList]).variants
      = ["##m".toList, "#CHROM\tPOS".toList, [], "a\tb".toList].length :=
  vcf_stats_count_law ["##m".toList, "#CHROM\tPOS".toList, [], "a\tb".toList] (by decide)

/-- C8 (row format of `write_vcf_body`), evaluated on the code: for the table
`example_fix`, `example_gt` (two genotype columns, second row without `INFO`),
`write_vcf_body` with `mask = 0` emits for the second row a text with
`10` tabs, one more than `7 + 2`: after the `"."` of the missing `INFO` it
writes a tab, and then the tab that precedes the genotype columns. -/
theorem write_vcf_body_missing_info_extra_tab :
    write_vcf_body int_host example_fix example_gt [] 0
      = .ok ("chr1\t10\trs1\tA\tT\t30\tPASS\tDP=1\tGT\t0/1\n".toList
          ++ "chr1\t20\t.\tG\tC\t.\tq10\t.\t\tGT\t1/1\n".toList)
    ∧ "chr1\t20\t.\tG\tC\t.\tq10\t.\t\tGT\t1/1\n".toList.count tab = 10
    ∧ example_gt.length = 2 := by
  decide

/-- C9, as stated, fails for a table without genotype columns: with the two
rows of `example_fix` and an empty genotype data frame, both writers called
with `mask = 0` stop with the index-out-of-bounds exception of
`DataFrame_to_StringMatrix` (`df(0)` on a data frame without columns) and emit
no row. -/
theorem mask_filter_polarity_counterexample :
    (∃ c, fix_columns int_host example_fix = .ok c ∧ c.rows 2)
      ∧ write_vcf_body int_host example_fix [] [] 0 = .error .index_out_of_bounds
      ∧ write_vcf_body_gz int_host example_fix [] [] 0 = .error .index_out_of_bounds :=
  ⟨⟨_, rfl, by decide⟩, by decide, by decide⟩

/-- C9, amended (polarity of the mask filter). For every table of `n` rows with
at least one genotype column: with `mask = 1`, `write_vcf_body` appends exactly
the rows whose `FILTER` is not `"PASS"` (a missing `FILTER` is not `"PASS"`) and
`write_vcf_body_gz` exactly the rows whose `FILTER` is `"PASS"`, each in input
row order, so that every row is kept by exactly one of the two writers; with
`mask = 0` both writers append every row in input order. -/
theorem mask_filter_polarity {R : Type} (h : Host R) (fix gt : DataFrame R) (file : Str)
    (n : Nat) (c : FixColumns) (hfix : fix_columns h fix = .ok c) (hc : c.rows n)
    (hgt : gt.rows h n) (hG : gt ≠ []) :
    write_vcf_body h fix gt file 1
        = .ok (file ++ ((List.range n).filter
            (fun i => decide (c.filter.getD i none ≠ some PASS))).flatMap
              (fun i => (table_row h c gt i).text))
      ∧ write_vcf_body_gz h fix gt file 1
        = .ok (file ++ ((List.range n).filter
            (fun i => decide (c.filter.getD i none = some PASS))).flatMap
              (fun i => (table_row h c gt i).text_gz))
      ∧ (∀ i, i < n →
          (i ∈ (List.range n).filter (fun i => decide (c.filter.getD i none ≠ some PASS))
            ↔ i ∉ (List.range n).filter (fun i => decide (c.filter.getD i none = some PASS))))
      ∧ write_vcf_body h fix gt file 0
        = .ok (file ++ (List.range n).flatMap (fun i => (table_row h c gt i).text))
      ∧ write_vcf_body_gz h fix gt file 0
        = .ok (file ++ (List.range n).flatMap (fun i => (table_row h c gt i).text_gz)) := by
  refine ⟨?_, ?_, ?_, ?_, ?_⟩
  · rw [write_vcf_body_eq h fix gt file 1 n c hfix hc hgt hG]
    simp
  · rw [write_vcf_body_gz_eq h fix gt file 1 n c hfix hc hgt hG]
    simp
  · intro i hi
    simp [List.mem_filter, hi]
  · rw [write_vcf_body_eq h fix gt file 0 n c hfix hc hgt hG]
    simp
  · rw [write_vcf_body_gz_eq h fix gt file 0 n c hfix hc hgt hG]
    simp

/-- Witness for C9 amended: the table `example_fix`, `example_gt` of two rows,
whose first row has `FILTER = "PASS"` and whose second has not, appended to a
file that holds `"x\n"`. With `mask = 1` the plain writer appends the second
row only and the gz writer the first row only. -/
theorem mask_filter_polarity_witness :
    write_vcf_body int_host example_fix example_gt ['x', '\n'] 1
        = .ok ("x\n".toList ++ "chr1\t20\t.\tG\tC\t.\tq10\t.\t\tGT\t1/1\n".toList)
      ∧ write_vcf_body_gz int_host example_fix example_gt ['x', '\n'] 1
        = .ok ("x\n".toList ++ "chr1\t10\trs1\tA\tT\t30\tPASS\tDP=1\tGT\t0/1\n".toList)
      ∧ ∃ c, fix_columns int_host example_fix = .ok c
        ∧ write_vcf_body int_host example_fix example_gt ['x', '\n'] 1
          = .ok (['x', '\n'] ++ ((List.range 2).filter
              (fun i => decide (c.filter.getD i none ≠ some PASS))).flatMap
                (fun i => (table_row int_host c example_gt i).text))
        ∧ write_vcf_body_gz int_host example_fix example_gt ['x', '\n'] 1
          = .ok (['x', '\n'] ++ ((List.range 2).filter
              (fun i => decide (c.filter.getD i none = some PASS))).flatMap
                (fun i => (table_row int_host c example_gt i).text_gz))
        ∧ (∀ i, i < 2 →
            (i ∈ (List.range 2).filter
                (fun i => decide (c.filter.getD i none ≠ some PASS))
              ↔ i ∉ (List.range 2).filter
                (fun i => decide (c.filter.getD i none = some PASS))))
        ∧ write_vcf_body int_host example_fix example_gt ['x', '\n'] 0
          = .ok (['x', '\n'] ++ (List.range 2).flatMap
              (fun i => (table_row int_host c example_gt i).text))
        ∧ write_vcf_body_gz int_host example_fix example_gt ['x', '\n'] 0
          = .ok (['x', '\n'] ++ (List.range 2).flatMap
              (fun i => (table_row int_host c example_gt i).text_gz)) :=
  ⟨by decide, by decide, _, rfl,
    mask_filter_polarity int_host example_fix example_gt ['x', '\n'] 2 _ rfl (by decide)
      (by decide) (by decide)⟩

/-- C10 (one row format for the two writers), evaluated on the code: for the
table `example_fix`, `example_gt` and `mask = 0`, the two writers append
different texts. In the row without `INFO`, `write_vcf_body` writes `"."`
followed by two tabs, and `write_vcf_body_gz` writes `"NA"` followed by one
tab. -/
theorem writers_differ_on_missing_info :
    write_vcf_body int_host example_fix example_gt [] 0
      = .ok ("chr1\t10\trs1\tA\tT\t30\tPASS\tDP=1\tGT\t0/1\n".toList
          ++ "chr1\t20\t.\tG\tC\t.\tq10\t.\t\tGT\t1/1\n".toList)
    ∧ write_vcf_body_gz int_host example_fix example_gt [] 0
      = .ok ("chr1\t10\trs1\tA\tT\t30\tPASS\tDP=1\tGT\t0/1\n".toList
          ++ "chr1\t20\t.\tG\tC\t.\tq10\tNA\tGT\t1/1\n".toList)
    ∧ write_vcf_body int_host example_fix example_gt [] 0
      ≠ write_vcf_body_gz int_host example_fix example_gt [] 0 := by
  decide

/-- C3 (NA law), evaluated on the code: on `example_file`, whose record has
`"."` in `ALT` and in `INFO`, `vcf_body` stores the missing value in both
columns; but written back with `mask = 0`, `ALT` comes out as `"NA"` from both
writers, and `INFO` as `"NA"` from `write_vcf_body_gz`. -/
theorem na_law_fails_on_alt_and_info :
    ∃ df, vcf_body int_host example_file (vcf_stats example_file) = .ok df
      ∧ df.col "ALT".toList = .ok (.character [none])
      ∧ df.col "INFO".toList = .ok (.character [none])
      ∧ write_vcf_body int_host (df.take 8) (df.drop 8) [] 0
        = .ok "chr1\t10\trs1\tA\tNA\t30\tPASS\t.\t\tGT\t0/0\n".toList
      ∧ write_vcf_body_gz int_host (df.take 8) (df.drop 8) [] 0
        = .ok "chr1\t10\trs1\tA\tNA\t30\tPASS\tNA\tGT\t0/0\n".toList :=
  ⟨[("CHROM".toList, .character [some "chr1".toList]),
    ("POS".toList, .integer [some 10]),
    ("ID".toList, .character [some "rs1".toList]),
    ("REF".toList, .character [some "A".toList]),
    ("ALT".toList, .character [none]),
    ("QUAL".toList, .numeric [some 30]),
    ("FILTER".toList, .character [some "PASS".toList]),
    ("INFO".toList, .character [none]),
    ("FORMAT".toList, .character [some "GT".toList]),
    ("S1".toList, .character [some "0/0".toList])],
   by decide, by decide, by decide, by decide, by decide⟩

/-- C14 (header fields of `vcf_stats`). For every file that contains exactly
one header line (first character `#`, second not `#`), here the line `header`
between the lines `pre` and the lines `post`, `vcf_stats` returns
`header =` (number of lines of `pre` beginning with `##`) `+ 1` and
`columns =` (number of tabs in the header line) `+ 1`; when all lines beginning
with `##` precede the header and no other line does, `header` is the 1-based
line number of the header line. -/
theorem vcf_stats_header_fields (pre post : List Str) (header : Str)
    (hh : is_header header = true) (hpre : ∀ l ∈ pre, is_header l = false)
    (hpost : ∀ l ∈ post, is_header l = false) :
    (vcf_stats (pre ++ header :: post)).header = pre.countP is_meta + 1
      ∧ (vcf_stats (pre ++ header :: post)).columns = header.count tab + 1
      ∧ ((∀ l ∈ pre, is_meta l = true) → (∀ l ∈ post, is_meta l = false) →
          (vcf_stats (pre ++ header :: post)).header = pre.length + 1
            ∧ (pre ++ header :: post)[(vcf_stats (pre ++ header :: post)).header - 1]?
                = some header) := by
  rw [vcf_stats_one_header pre post header hh hpre hpost]
  refine ⟨rfl, rfl, ?_⟩
  intro hm _
  simp only [countP_eq_length_of_all is_meta pre hm]
  refine ⟨trivial, ?_⟩
  rw [Nat.add_sub_cancel, List.getElem?_append_right (le_refl _)]
  simp

/-- Witness for C14: two meta lines, a header of three columns and a record;
`header = 3` and `columns = 3`. -/
theorem vcf_stats_header_fields_witness :
    (vcf_stats (["##a".toList, "##b".toList] ++ "#C\tP\tI".toList :: ["x\t1\ty".toList])).header
        = ["##a".toList, "##b".toList].countP is_meta + 1
      ∧ (vcf_stats (["##a".toList, "##b".toList] ++ "#C\tP\tI".toList
            :: ["x\t1\ty".toList])).columns = "#C\tP\tI".toList.count tab + 1
      ∧ ((∀ l ∈ ["##a".toList, "##b".toList], is_meta l = true) →
          (∀ l ∈ ["x\t1\ty".toList], is_meta l = false) →
          (vcf_stats (["##a".toList, "##b".toList] ++ "#C\tP\tI".toList
              :: ["x\t1\ty".toList])).header = ["##a".toList, "##b".toList].length + 1
            ∧ (["##a".toList, "##b".toList] ++ "#C\tP\tI".toList :: ["x\t1\ty".toList])[
                (vcf_stats (["##a".toList, "##b".toList] ++ "#C\tP\tI".toList
                  :: ["x\t1\ty".toList])).header - 1]? = some "#C\tP\tI".toList) :=
  vcf_stats_header_fields ["##a".toList, "##b".toList] ["x\t1\ty".toList] "#C\tP\tI".toList
    (by decide) (by decide) (by decide)

/-- C16 (`vcf_meta` returns the meta lines verbatim). For every file whose
lines beginning with `##`, here `metas`, all precede every other line, here
`rest`, `vcf_meta(file, vcf_stats(file))` is exactly the sequence of the lines
of the file that begin with `##`, unmodified and in file order, and its length
is `vcf_stats(file).meta`. -/
theorem vcf_meta_verbatim (metas rest : List Str) (hm : ∀ l ∈ metas, is_meta l = true)
    (hr : ∀ l ∈ rest, is_meta l = false) :
    vcf_meta (metas ++ rest) (vcf_stats (metas ++ rest))
        = .ok (((metas ++ rest).filter is_meta).map some)
      ∧ (metas ++ rest).filter is_meta = metas
      ∧ ((metas ++ rest).filter is_meta).length = (vcf_stats (metas ++ rest)).meta := by
  have hfilter : (metas ++ rest).filter is_meta = metas := by
    rw [List.filter_append, List.filter_eq_self.2 hm, List.filter_eq_nil_iff.2
      (fun l hl => by simp [hr l hl])]
    simp
  have hmeta : (vcf_stats (metas ++ rest)).meta = metas.length := by
    unfold vcf_stats
    rw [vcf_stats_fold_meta, List.countP_append, countP_eq_length_of_all is_meta metas hm,
      countP_eq_zero_of_none is_meta rest hr]
    simp
  refine ⟨?_, hfilter, by rw [hfilter, hmeta]⟩
  unfold vcf_meta
  rw [hmeta, vcf_meta_loop_spec _ _ _ _ (by simp) (by simp), hfilter]
  simp

/-- Witness for C16: two meta lines, then the header and a record. -/
theorem vcf_meta_verbatim_witness :
    vcf_meta (["##a".toList, "##b=1".toList] ++ ["#C\tP".toList, "x\t1".toList])
        (vcf_stats (["##a".toList, "##b=1".toList] ++ ["#C\tP".toList, "x\t1".toList]))
        = .ok (((["##a".toList, "##b=1".toList] ++ ["#C\tP".toList, "x\t1".toList]).filter
            is_meta).map some)
      ∧ (["##a".toList, "##b=1".toList] ++ ["#C\tP".toList, "x\t1".toList]).filter is_meta
          = ["##a".toList, "##b=1".toList]
      ∧ ((["##a".toList, "##b=1".toList] ++ ["#C\tP".toList, "x\t1".toList]).filter
            is_meta).length
          = (vcf_stats (["##a".toList, "##b=1".toList]
              ++ ["#C\tP".toList, "x\t1".toList])).meta :=
  vcf_meta_verbatim ["##a".toList, "##b=1".toList] ["#C\tP".toList, "x\t1".toList]
    (by decide) (by decide)

/-- C17, as stated, fails: the file of the header line `#CHROM<tab>POS`, an
empty line and the record `a<tab>b` has exactly one header line and two
non-blank lines, yet `vcf_stats` returns `meta = 0` and `variants = 2`, so
`meta + 1 + variants = 3`: the empty line is counted as a variant. -/
theorem vcf_stats_nonblank_counterexample :
    ["#CHROM\tPOS".toList, [], "a\tb".toList].countP is_header = 1
      ∧ (["#CHROM\tPOS".toList, [], "a\tb".toList].filter (fun l => l ≠ [])).length = 2
      ∧ vcf_stats ["#CHROM\tPOS".toList, [], "a\tb".toList] = ⟨0, 1, 2, 2⟩
      ∧ (vcf_stats ["#CHROM\tPOS".toList, [], "a\tb".toList]).meta + 1
          + (vcf_stats ["#CHROM\tPOS".toList, [], "a\tb".toList]).variants
        ≠ (["#CHROM\tPOS".toList, [], "a\tb".toList].filter (fun l => l ≠ [])).length := by
  decide

/-- C17, amended (invariant of the counts over the lines). For every file with
exactly one header line, including files that contain blank (empty) lines,
`vcf_stats` returns counts with `meta + 1 + variants =` the number of non-blank
lines of the file plus the number of its blank lines, i.e. an empty line is
counted as a variant. -/
theorem vcf_stats_blank_lines_counted (file : List Str)
    (hheader : file.countP is_header = 1) :
    (vcf_stats file).meta + 1 + (vcf_stats file).variants
        = (file.filter (fun l => l ≠ [])).length + file.count []
      ∧ ∀ s : Stats, vcf_stats_line s [] = { s with variants := s.variants + 1 } := by
  have hnul : nul ≠ '#' := by decide
  refine ⟨?_, fun s => by simp [vcf_stats_line, char_at, hnul]⟩
  have h := vcf_stats_fold_count file ⟨0, 0, 0, 0⟩
  have hsplit : (file.filter (fun l => l ≠ [])).length + file.count [] = file.length := by
    clear h hheader
    induction file with
    | nil => rfl
    | cons l ls ih =>
      by_cases hl : l = []
      · subst hl
        simp only [ne_eq, not_true_eq_false, decide_False, Bool.false_eq_true,
          not_false_eq_true, List.filter_cons_of_neg, List.count_cons_self,
          List.length_cons] at ih ⊢
        omega
      · have hl2 : ([] : Str) ≠ l := fun e => hl e.symm
        rw [List.filter_cons_of_pos (by simpa using hl), List.count_cons_of_ne hl2]
        simp only [List.length_cons]
        omega
  unfold vcf_stats
  simp only [hheader] at h
  omega

/-- Witness for C17 amended: a header, an empty line and a record. -/
theorem vcf_stats_blank_lines_counted_witness :
    (vcf_stats ["##m".toList, "#CHROM\tPOS".toList, [], [], "a\tb".toList]).meta + 1
        + (vcf_stats ["##m".toList, "#CHROM\tPOS".toList, [], [], "a\tb".toList]).variants
        = (["##m".toList, "#CHROM\tPOS".toList, [], [], "a\tb".toList].filter
            (fun l => l ≠ [])).length
          + ["##m".toList, "#CHROM\tPOS".toList, [], [], "a\tb".toList].count []
      ∧ ∀ s : Stats, vcf_stats_line s [] = { s with variants := s.variants + 1 } :=
  vcf_stats_blank_lines_counted ["##m".toList, "#CHROM\tPOS".toList, [], [], "a\tb".toList]
    (by decide)

/-- C19 (`tabsplit` on lines without empty leading or interior fields). For
every `N ≥ 1` and every line that has exactly `N - 1` tabs, does not begin with
a tab and has no two adjacent tabs, `tabsplit(line, N)` returns exactly the `N`
tab-delimited fields of the line, which are what splitting the line on the tab
character gives, and tab-joining them gives back the line. -/
theorem tabsplit_splits_on_tabs (line : Str) (N : Nat) (hN : 1 ≤ N)
    (hcount : line.count tab = N - 1) (hhead : line.head? ≠ some tab)
    (hadj : no_adjacent_tabs line = true) :
    tabsplit line N = .ok (line.splitOn tab) ∧ (line.splitOn tab).length = N
      ∧ tab_join (line.splitOn tab) = line := by
  obtain ⟨h1, h2⟩ := scanned_fields_eq_splitOn line hhead hadj
  have hlen : (scanned_fields line).length = N := by omega
  refine ⟨?_, by rw [← h1]; exact hlen, ?_⟩
  · rw [tabsplit_eq, hlen, ← h1]
    simp
  · rw [tab_join_eq_intercalate, List.intercalate_splitOn]

/-- Witness for C19: the line `ab<tab>c<tab>` with `N = 3`; the tab at index 1
would be skipped were it there, and the last field is empty. -/
theorem tabsplit_splits_on_tabs_witness :
    tabsplit ['a', 'b', '\t', 'c', '\t'] 3 = .ok (['a', 'b', '\t', 'c', '\t'].splitOn tab)
      ∧ (['a', 'b', '\t', 'c', '\t'].splitOn tab).length = 3
      ∧ tab_join (['a', 'b', '\t', 'c', '\t'].splitOn tab) = ['a', 'b', '\t', 'c', '\t'] :=
  tabsplit_splits_on_tabs ['a', 'b', '\t', 'c', '\t'] 3 (by decide) (by decide) (by decide)
    (by decide)

/-- C11, as stated, fails: the record of the file below has the text `abc` in
`POS`, which is not `"."` and holds no digit, yet `vcf_body` returns a table,
and the `POS` of the row is `0`, the result of `atoi`. -/
theorem nonnumeric_pos_counterexample :
    tabsplit example_record_abc 8
        = .ok ["chr1".toList, "abc".toList, "rs1".toList, "A".toList, "T".toList,
            "30".toList, "PASS".toList, "DP=1".toList]
      ∧ "abc".toList ≠ dot ∧ "abc".toList.any Char.isDigit = false
      ∧ ∃ df, vcf_body int_host
            ["##fileformat=VCFv4.1".toList, example_header8, example_record_abc]
            (vcf_stats ["##fileformat=VCFv4.1".toList, example_header8, example_record_abc])
          = .ok df
        ∧ df.col "POS".toList = .ok (.integer [some 0]) :=
  ⟨by decide, by decide, by decide,
   [("CHROM".toList, .character [some "chr1".toList]),
    ("POS".toList, .integer [some 0]),
    ("ID".toList, .character [some "rs1".toList]),
    ("REF".toList, .character [some "A".toList]),
    ("ALT".toList, .character [some "T".toList]),
    ("QUAL".toList, .numeric [some 30]),
    ("FILTER".toList, .character [some "PASS".toList]),
    ("INFO".toList, .character [some "DP=1".toList])],
   by decide, by decide⟩

/-- C11, amended (a non-numeric `POS` is not rejected). Take a file of meta
lines, a header line of at least 8 columns and record lines that do not begin
with a tab, have no two adjacent tabs and have at most `columns` tab-separated
fields. A record line whose `POS` field (field 1) is neither `"."` nor the
decimal text of an integer does not make `vcf_body` fail: when `atoi` of each
`POS` field fits an `int`, `vcf_body` returns a table, in which `POS` of a row
is missing when the field is `"."` or `atoi` of the field is the least `int`
(R's `NA_INTEGER`), and is `atoi` of the field otherwise; `atoi` is `0` for a
field that begins with neither white space, a sign nor a digit. -/
theorem nonnumeric_pos_stored {R : Type} (h : Host R) (metas body : List Str) (header : Str)
    (hm : ∀ l ∈ metas, is_meta l = true) (hh : is_header header = true)
    (hb : ∀ l ∈ body, is_meta l = false ∧ is_header l = false)
    (hN : 8 ≤ header.count tab + 1)
    (hrows : ∀ line ∈ body, line.head? ≠ some tab ∧ no_adjacent_tabs line = true
      ∧ line.count tab + 1 ≤ header.count tab + 1
      ∧ INT_MIN ≤ atoi ((line.splitOn tab).getD 1 [])
      ∧ atoi ((line.splitOn tab).getD 1 []) ≤ INT_MAX) :
    ∃ table, vcf_body h (metas ++ header :: body) (vcf_stats (metas ++ header :: body))
        = .ok table
      ∧ table.at 1 = .ok (.integer (body.map (fun line =>
          if (line.splitOn tab).getD 1 [] = dot ∨ atoi ((line.splitOn tab).getD 1 []) = INT_MIN
          then none else some (atoi ((line.splitOn tab).getD 1 [])))))
      ∧ ∀ (c : Char) (cs : Str), c.isDigit = false → isspace c = false → c ≠ '-' →
          c ≠ '+' → atoi (c :: cs) = 0 := by
  refine ⟨_, vcf_body_layout_ok h metas body header hm hh hb hN
    (parse_rows_well_formed _ body hrows), ?_, atoi_no_number⟩
  rw [table_of_pos h _ _ _ (by rw [(header_names_ok header).2]; omega), List.map_map]
  congr 2
  apply List.map_congr_left
  intro line hl
  obtain ⟨a, b, _, d, e⟩ := hrows line hl
  simp only [Function.comp_apply]
  rw [(split_row_eq_splitOn _ line a b).2.2 1, pos_cell_in_range _ d e]

/-- Witness for C11 amended: records with `POS` `10`, `abc` and
`-2147483648x`; the stored values are `10`, `0` and the missing value. -/
theorem nonnumeric_pos_stored_witness :
    [example_record8, example_record_abc, example_record_min].map (fun line =>
        if (line.splitOn tab).getD 1 [] = dot ∨ atoi ((line.splitOn tab).getD 1 []) = INT_MIN
        then none else some (atoi ((line.splitOn tab).getD 1 [])))
      = [some 10, some 0, none]
    ∧ ∃ table, vcf_body int_host (["##fileformat=VCFv4.1".toList] ++ example_header8
          :: [example_record8, example_record_abc, example_record_min])
        (vcf_stats (["##fileformat=VCFv4.1".toList] ++ example_header8
          :: [example_record8, example_record_abc, example_record_min]))
        = .ok table
      ∧ table.at 1 = .ok (.integer
          ([example_record8, example_record_abc, example_record_min].map (fun line =>
            if (line.splitOn tab).getD 1 [] = dot
              ∨ atoi ((line.splitOn tab).getD 1 []) = INT_MIN
            then none else some (atoi ((line.splitOn tab).getD 1 [])))))
      ∧ ∀ (c : Char) (cs : Str), c.isDigit = false → isspace c = false → c ≠ '-' →
          c ≠ '+' → atoi (c :: cs) = 0 :=
  ⟨by decide,
   nonnumeric_pos_stored int_host ["##fileformat=VCFv4.1".toList]
    [example_record8, example_record_abc, example_record_min] example_header8 (by decide)
    (by decide) (by decide) (by decide) (by decide)⟩

/-- C12, as stated, fails: the record of the file below has 9 tab-separated
fields against `columns = 10`, yet `vcf_body` returns a table, in which the
missing field of the sample `S1` is the empty string. -/
theorem short_record_counterexample :
    (example_record9.splitOn tab).length = 9
      ∧ (vcf_stats ["##fileformat=VCFv4.1".toList, example_header10, example_record9]).columns
          = 10
      ∧ tabsplit example_record9 10
          = .ok ["chr1".toList, "10".toList, "rs1".toList, "A".toList, "T".toList,
              "30".toList, "PASS".toList, "DP=1".toList, "GT".toList, []]
      ∧ ∃ df, vcf_body int_host
            ["##fileformat=VCFv4.1".toList, example_header10, example_record9]
            (vcf_stats ["##fileformat=VCFv4.1".toList, example_header10, example_record9])
          = .ok df
        ∧ df.col "FORMAT".toList = .ok (.character [some "GT".toList])
        ∧ df.col "S1".toList = .ok (.character [some []]) :=
  ⟨by decide, by decide, by decide,
   [("CHROM".toList, .character [some "chr1".toList]),
    ("POS".toList, .integer [some 10]),
    ("ID".toList, .character [some "rs1".toList]),
    ("REF".toList, .character [some "A".toList]),
    ("ALT".toList, .character [some "T".toList]),
    ("QUAL".toList, .numeric [some 30]),
    ("FILTER".toList, .character [some "PASS".toList]),
    ("INFO".toList, .character [some "DP=1".toList]),
    ("FORMAT".toList, .character [some "GT".toList]),
    ("S1".toList, .character [some []])],
   by decide, by decide, by decide⟩

/-- C12, amended (a short record is not rejected). Take a file of meta lines,
a header line of at least 8 columns and record lines that do not begin with a
tab, have no two adjacent tabs, have at most `columns` tab-separated fields and
whose `POS` field fits an `int` under `atoi`. A record line that has fewer
fields than `columns` does not make `vcf_body` fail: `tabsplit` returns for
each line its tab-separated fields followed by empty strings up to `columns`
elements, and `vcf_body` returns the table of these elements, of `columns`
columns, in which cell `k` of genotype column `j` is field `j + 8` of record
`k`, and the empty string when the record has no such field. -/
theorem short_record_padded {R : Type} (h : Host R) (metas body : List Str) (header : Str)
    (hm : ∀ l ∈ metas, is_meta l = true) (hh : is_header header = true)
    (hb : ∀ l ∈ body, is_meta l = false ∧ is_header l = false)
    (hN : 8 ≤ header.count tab + 1)
    (hrows : ∀ line ∈ body, line.head? ≠ some tab ∧ no_adjacent_tabs line = true
      ∧ line.count tab + 1 ≤ header.count tab + 1
      ∧ INT_MIN ≤ atoi ((line.splitOn tab).getD 1 [])
      ∧ atoi ((line.splitOn tab).getD 1 []) ≤ INT_MAX) :
    (∀ line ∈ body,
        tabsplit line (header.count tab + 1)
          = .ok (line.splitOn tab
              ++ List.replicate (header.count tab + 1 - (line.splitOn tab).length) [])
        ∧ (line.splitOn tab).length = line.count tab + 1)
      ∧ ∃ names table, header_names header (header.count tab + 1) = .ok names
        ∧ vcf_body h (metas ++ header :: body) (vcf_stats (metas ++ header :: body))
          = .ok table
        ∧ table = table_of h (header.count tab + 1) names
            (body.map (fun line => line.splitOn tab
              ++ List.replicate (header.count tab + 1 - (line.splitOn tab).length) []))
        ∧ table.length = header.count tab + 1
        ∧ ∀ j, j < header.count tab + 1 - 8 →
            table.at (j + 8)
              = .ok (.character (body.map (fun line =>
                  match (line.splitOn tab)[j + 8]? with
                  | some field => some field
                  | none => some []))) := by
  have hp := parse_rows_well_formed _ body hrows
  have hmap : body.map (split_row (header.count tab + 1))
      = body.map (fun line => line.splitOn tab
          ++ List.replicate (header.count tab + 1 - (line.splitOn tab).length) []) := by
    apply List.map_congr_left
    intro line hl
    obtain ⟨a, b, _⟩ := hrows line hl
    exact (split_row_eq_splitOn _ line a b).1
  refine ⟨?_, _, _, (header_names_ok header).1,
    vcf_body_layout_ok h metas body header hm hh hb hN hp, by rw [hmap],
    (table_of_length h _ _ _ hN (header_names_ok header).2).1, ?_⟩
  · intro line hl
    obtain ⟨a, b, _⟩ := hrows line hl
    obtain ⟨s1, s2, _⟩ := split_row_eq_splitOn (header.count tab + 1) line a b
    exact ⟨by rw [tabsplit_eq_split_row line _ (hp line hl).1, s1], s2⟩
  · intro j hj
    rw [table_of_gt h _ _ _ (header_names_ok header).2 j hj, List.map_map]
    congr 2
    apply List.map_congr_left
    intro line hl
    obtain ⟨a, b, _⟩ := hrows line hl
    simp only [Function.comp_apply]
    rw [(split_row_eq_splitOn _ line a b).2.2 (j + 8), List.getD_eq_getElem?_getD]
    cases (line.splitOn tab)[j + 8]? <;> rfl

/-- Witness for C12 amended: the header of ten columns, a record of nine fields
and a record of eight; the cells of the first genotype column are `GT` and the
empty string. -/
theorem short_record_padded_witness :
    [example_record9, example_record8].map (fun line =>
        match (line.splitOn tab)[0 + 8]? with
        | some field => some field
        | none => some []) = [some "GT".toList, some []]
    ∧ (∀ line ∈ [example_record9, example_record8],
        tabsplit line (example_header10.count tab + 1)
          = .ok (line.splitOn tab
              ++ List.replicate (example_header10.count tab + 1 - (line.splitOn tab).length) [])
        ∧ (line.splitOn tab).length = line.count tab + 1)
      ∧ ∃ names table, header_names example_header10 (example_header10.count tab + 1)
          = .ok names
        ∧ vcf_body int_host (["##fileformat=VCFv4.1".toList] ++ example_header10
              :: [example_record9, example_record8])
            (vcf_stats (["##fileformat=VCFv4.1".toList] ++ example_header10
              :: [example_record9, example_record8]))
          = .ok table
        ∧ table = table_of int_host (example_header10.count tab + 1) names
            ([example_record9, example_record8].map (fun line => line.splitOn tab
              ++ List.replicate (example_header10.count tab + 1 - (line.splitOn tab).length)
                  []))
        ∧ table.length = example_header10.count tab + 1
        ∧ ∀ j, j < example_header10.count tab + 1 - 8 →
            table.at (j + 8)
              = .ok (.character ([example_record9, example_record8].map (fun line =>
                  match (line.splitOn tab)[j + 8]? with
                  | some field => some field
                  | none => some []))) :=
  ⟨by decide,
   short_record_padded int_host ["##fileformat=VCFv4.1".toList]
    [example_record9, example_record8] example_header10 (by decide) (by decide)
    (by decide) (by decide) (by decide)⟩

/-- C15 (`tabsplit` absorbs excess tabs), evaluated on the code: the line
`a<tab>b<tab>c` has two tabs, more than `2 - 1`, and `tabsplit` with `N = 2`
does not return the fields `a` and `b<tab>c`. Its loop stores `stringv[0] = "a"`
and `stringv[1] = "b"`, and the store of the last element goes to `stringv[2]`,
past the end of the vector of two elements. The same happens in `vcf_body` on a
record of nine fields under a header of eight columns. -/
theorem tabsplit_excess_tabs_store_past_end :
    1 ≤ 2 ∧ 2 - 1 < ['a', '\t', 'b', '\t', 'c'].count tab
      ∧ tabsplit ['a', '\t', 'b', '\t', 'c'] 2 ≠ .ok [['a'], ['b', '\t', 'c']]
      ∧ tabsplit ['a', '\t', 'b', '\t', 'c'] 2 = .error .undefined_behavior
      ∧ tabsplit_loop ['a', '\t', 'b', '\t', 'c'] 5 1 0 0 [[], []]
          = .ok (4, 2, [['a'], ['b']])
      ∧ write_u [['a'], ['b']] 2 ['c'] = .error .undefined_behavior
      ∧ (vcf_stats ["##fileformat=VCFv4.1".toList, example_header8, example_record9]).columns
          = 8
      ∧ 8 - 1 < example_record9.count tab
      ∧ tabsplit example_record9 8 = .error .undefined_behavior
      ∧ vcf_body int_host ["##fileformat=VCFv4.1".toList, example_header8, example_record9]
          (vcf_stats ["##fileformat=VCFv4.1".toList, example_header8, example_record9])
        = .error .undefined_behavior := by
  decide

end ReadVcf

